import Mathlib

/-!
Shallow embedding of OpenRAVE's `GenericTrajectory` (generictrajectory.cpp):
the configuration-specification group model, the waypoint buffer and its
mutating operations, the lazily rebuilt time index, the sampling engine with
its per-group scalar interpolation kernels, and the binary serializer.

The runtime scalar `dReal` (an IEEE double in the source) is embedded as `ℚ`:
every interpolation formula of the source is a rational arithmetic expression,
so the embedding computes the exact value the source's formulas denote;
floating-point rounding is outside the model.  `std::vector` indexing by
`operator[]`/`.at` is embedded as `List.getD _ 0`; all theorems below carry
layout hypotheses under which those accesses are in range, where the two
coincide with the source.
-/

unseal Rat.add Rat.mul Rat.inv Rat.sub

namespace GenTraj

/-- Decidable equality of `Except` results, used to state concrete
evaluations of the fallible operations. -/
instance {e a : Type} [DecidableEq e] [DecidableEq a] : DecidableEq (Except e a) := fun x y =>
  match x, y with
  | .ok v, .ok w =>
    if h : v = w then isTrue (by rw [h]) else isFalse (fun hh => h (Except.ok.inj hh))
  | .error v, .error w =>
    if h : v = w then isTrue (by rw [h]) else isFalse (fun hh => h (Except.error.inj hh))
  | .ok _, .error _ => isFalse (fun hh => Except.noConfusion hh)
  | .error _, .ok _ => isFalse (fun hh => Except.noConfusion hh)

abbrev dReal := ℚ

/-- Modelled from the spec: the runtime tolerance ε (`g_fEpsilon` of the
source, whose numeric value lives outside the provided sources).  Only its
positivity and comparisons against concrete sample offsets are ever used. -/
def g_fEpsilon : dReal := 1 / 1000000000000000

/-- One channel group of a configuration specification
(`ConfigurationSpecification::Group`): a space-separated name whose first
token is the category, the channel offset inside a waypoint row, the number
of channels, and the interpolation label. -/
structure Group where
  name : String
  offset : ℕ
  dof : ℕ
  interpolation : String
deriving DecidableEq, Repr

/-- An ordered list of groups (`ConfigurationSpecification`). -/
structure ConfigurationSpecification where
  vgroups : List Group
deriving DecidableEq, Repr

/-- Modelled from the spec: the total DOF of a specification equals the sum
of each group's dof (the implementation of `GetDOF` is outside the provided
sources). -/
def ConfigurationSpecification.GetDOF (s : ConfigurationSpecification) : ℕ :=
  (s.vgroups.map Group.dof).sum

/-- The category of a group name: the text before the first space
(`name.substr(0, name.find_first_of(' '))` in `SortGroups`), computed on the
character list. -/
def categoryOf (name : String) : String :=
  String.mk (name.data.takeWhile (fun c => c ≠ ' '))

/-- Lexicographic comparison of character lists: the byte-wise
`std::string operator<` of the source (all group names are ASCII, where
code-point order is byte order). -/
def charListLt : List Char → List Char → Bool
  | [], [] => false
  | [], _ :: _ => true
  | _ :: _, [] => false
  | a :: as, b :: bs => if a < b then true else if b < a then false else charListLt as bs

/-- The `_maporder` table built in the `GenericTrajectory` constructor:
the fixed precedence rank of each known category. -/
def maporder (cat : String) : Option ℕ :=
  if cat = "deltatime" then some 0
  else if cat = "joint_snaps" then some 1
  else if cat = "affine_snaps" then some 2
  else if cat = "joint_jerks" then some 3
  else if cat = "affine_jerks" then some 4
  else if cat = "joint_accelerations" then some 5
  else if cat = "affine_accelerations" then some 6
  else if cat = "joint_velocities" then some 7
  else if cat = "affine_velocities" then some 8
  else if cat = "joint_values" then some 9
  else if cat = "affine_transform" then some 10
  else if cat = "joint_torques" then some 11
  else none

/-- The strict comparator `GenericTrajectory::SortGroups`: groups of known
category compare by `_maporder` rank, a known category precedes every unknown
one, and two unknown categories compare lexicographically. -/
def sortGroupsLt (g1 g2 : Group) : Bool :=
  let p1 := categoryOf g1.name
  let p2 := categoryOf g2.name
  match maporder p1, maporder p2 with
  | none, none => charListLt p1.data p2.data
  | none, some _ => false
  | some _, none => true
  | some r1, some r2 => decide (r1 < r2)

/-- Stable insertion of `x` into a list sorted by the strict comparator `lt`:
`x` lands before the first element not strictly below it, so elements equal
to `x` that are already present stay in front of it. -/
def insertSorted (lt : Group → Group → Bool) (x : Group) : List Group → List Group
  | [] => [x]
  | y :: ys => if lt y x then y :: insertSorted lt x ys else x :: y :: ys

/-- Stable insertion sort.  `Init` calls `std::stable_sort` with the
`SortGroups` comparator, a strict weak order; every stable sort computes the
same permutation there, so this insertion sort is the sort of the source. -/
def stableSortBy (lt : Group → Group → Bool) : List Group → List Group
  | [] => []
  | x :: xs => insertSorted lt x (stableSortBy lt xs)

/-- The canonical group ordering applied by `Init`. -/
def sortSpecGroups (l : List Group) : List Group :=
  stableSortBy sortGroupsLt l

/-- Structured errors of the trajectory operations.  `assertionFailure`
stands for a failed `BOOST_ASSERT`/`OPENRAVE_ASSERT` precondition,
`invalidArguments`/`invalidState`/`notImplemented` for the thrown
`openrave_exception` kinds.  The `invalidState` payload carries the offending
deltatime value, its waypoint index and the waypoint count, as formatted into
the source's message. -/
inductive TrajError where
  | assertionFailure
  | invalidArguments (msg : String)
  | invalidState (value : dReal) (index : ℕ) (count : ℕ)
  | notImplemented (msg : String)
deriving DecidableEq, Repr

/-- The full state of a `GenericTrajectory`: the specification, the cached
`deltatime` offset (`-1` when absent), the five resolved-offset arrays, the
flat waypoint buffer, the two lazily derived time arrays, the lifecycle and
cache flags, plus the description string and the readable annotation list
(`id`, serialized payload) held by the `InterfaceBase` base object. -/
structure GenericTrajectory where
  spec : ConfigurationSpecification
  timeoffset : ℤ
  vderivoffsets : List ℤ
  vddoffsets : List ℤ
  vdddoffsets : List ℤ
  vintegraloffsets : List ℤ
  viioffsets : List ℤ
  vtrajdata : List dReal
  vaccumtime : List dReal
  vdeltainvtime : List dReal
  bInit : Bool
  bChanged : Bool
  bSamplingVerified : Bool
  description : String
  readables : List (String × String)
deriving DecidableEq, Repr

/-- A freshly constructed trajectory, before any `Init`. -/
def emptyTrajectory : GenericTrajectory where
  spec := ⟨[]⟩
  timeoffset := -1
  vderivoffsets := []
  vddoffsets := []
  vdddoffsets := []
  vintegraloffsets := []
  viioffsets := []
  vtrajdata := []
  vaccumtime := []
  vdeltainvtime := []
  bInit := false
  bChanged := false
  bSamplingVerified := false
  description := ""
  readables := []

/-- Read one scalar of the waypoint buffer (vector indexing of the source). -/
def GenericTrajectory.readData (traj : GenericTrajectory) (idx : ℕ) : dReal :=
  traj.vtrajdata.getD idx 0

/-- Read the waypoint buffer at a signed index.  A negative index is an
out-of-range access in the source (possible only on inputs that fail
`_VerifySampling`); no theorem below exercises it. -/
def GenericTrajectory.readDataZ (traj : GenericTrajectory) (idx : ℤ) : dReal :=
  if idx < 0 then 0 else traj.readData idx.toNat

/-- Overwrite `data[start+i] := vals[i]` for `i < vals.length`, the
element-wise writes the interpolators perform through their output iterator
(`std::copy` into `itdata + offset`). -/
def writeSlots (data : List dReal) (start : ℕ) : List dReal → List dReal
  | [] => data
  | v :: vs => writeSlots (data.set start v) (start + 1) vs

/-- Copy `len` scalars of the waypoint buffer starting at `start`. -/
def GenericTrajectory.sliceData (traj : GenericTrajectory) (start len : ℕ) : List dReal :=
  (List.range len).map (fun i => traj.readData (start + i))

/-- The `_timeoffset` computation of `Init`: the offset of the last group
named exactly `deltatime`, `-1` when none exists. -/
def findTimeOffset (l : List Group) : ℤ :=
  l.foldl (fun acc g => if g.name = "deltatime" then (g.offset : ℤ) else acc) (-1)

/-- Modelled from the spec: the category table of `find_time_derivative`
(`ConfigurationSpecification::FindTimeDerivativeGroup` lives outside the
provided sources): `joint_values → joint_velocities → joint_accelerations →
joint_jerks → joint_snaps`, the analogous `affine` chain, and
`ikparam_values → ikparam_velocities → ikparam_accelerations`. -/
def derivCategoryOf (cat : String) : Option String :=
  if cat = "joint_values" then some "joint_velocities"
  else if cat = "joint_velocities" then some "joint_accelerations"
  else if cat = "joint_accelerations" then some "joint_jerks"
  else if cat = "joint_jerks" then some "joint_snaps"
  else if cat = "affine_transform" then some "affine_velocities"
  else if cat = "affine_velocities" then some "affine_accelerations"
  else if cat = "affine_accelerations" then some "affine_jerks"
  else if cat = "affine_jerks" then some "affine_snaps"
  else if cat = "ikparam_values" then some "ikparam_velocities"
  else if cat = "ikparam_velocities" then some "ikparam_accelerations"
  else none

/-- Modelled from the spec: the category table of `find_time_integral`, the
reverse of `derivCategoryOf`. -/
def integralCategoryOf (cat : String) : Option String :=
  if cat = "joint_velocities" then some "joint_values"
  else if cat = "joint_accelerations" then some "joint_velocities"
  else if cat = "joint_jerks" then some "joint_accelerations"
  else if cat = "joint_snaps" then some "joint_jerks"
  else if cat = "affine_velocities" then some "affine_transform"
  else if cat = "affine_accelerations" then some "affine_velocities"
  else if cat = "affine_jerks" then some "affine_accelerations"
  else if cat = "affine_snaps" then some "affine_jerks"
  else if cat = "ikparam_velocities" then some "ikparam_values"
  else if cat = "ikparam_accelerations" then some "ikparam_velocities"
  else none

/-- Modelled from the spec: the expected interpolation label of a derivative
group is the parent's label one polynomial degree lower (the spec's example:
a `cubic` parent expects a `quadratic` derivative); labels outside the ladder
have no expected derivative label. -/
def GetInterpolationDerivative (interp : String) : String :=
  if interp = "linear" then "next"
  else if interp = "quadratic" then "linear"
  else if interp = "cubic" then "quadratic"
  else if interp = "quartic" then "cubic"
  else if interp = "quintic" then "quartic"
  else if interp = "sextic" then "quintic"
  else ""

/-- Modelled from the spec: the expected interpolation label of an integral
group, the reverse of `GetInterpolationDerivative`. -/
def GetInterpolationIntegral (interp : String) : String :=
  if interp = "next" then "linear"
  else if interp = "linear" then "quadratic"
  else if interp = "quadratic" then "cubic"
  else if interp = "cubic" then "quartic"
  else if interp = "quartic" then "quintic"
  else if interp = "quintic" then "sextic"
  else ""

/-- The parameter data of a group name: everything from the first space on. -/
def parameterDataOf (name : String) : String :=
  String.mk (name.data.dropWhile (fun c => c ≠ ' '))

/-- Modelled from the spec: `find_compatible` returns a group of this spec
whose name's first token matches the argument's and whose dof equals the
argument's. -/
def FindCompatibleGroup (spec : ConfigurationSpecification) (g : Group) : Option Group :=
  spec.vgroups.find? (fun h =>
    decide (categoryOf h.name = categoryOf g.name ∧ h.dof = g.dof))

/-- Modelled from the spec: `find_time_derivative` maps the category through
the fixed table and returns a group of this spec with the target category,
the trailing parameter data preserved, of the same dof. -/
def FindTimeDerivativeGroup (spec : ConfigurationSpecification) (g : Group) : Option Group :=
  match derivCategoryOf (categoryOf g.name) with
  | none => none
  | some cat => spec.vgroups.find? (fun h =>
      decide (categoryOf h.name = cat ∧ parameterDataOf h.name = parameterDataOf g.name ∧
        h.dof = g.dof))

/-- Modelled from the spec: `find_time_integral`, symmetric to
`FindTimeDerivativeGroup`. -/
def FindTimeIntegralGroup (spec : ConfigurationSpecification) (g : Group) : Option Group :=
  match integralCategoryOf (categoryOf g.name) with
  | none => none
  | some cat => spec.vgroups.find? (fun h =>
      decide (categoryOf h.name = cat ∧ parameterDataOf h.name = parameterDataOf g.name ∧
        h.dof = g.dof))

/-- The label-match demotion of `_InitializeGroupFunctions`: a found related
group whose interpolation is empty or differs from the expected label is
dropped (treated as not being a real derivative/integral). -/
def demoteMismatched (og : Option Group) (expected : String) : Option Group :=
  match og with
  | none => none
  | some h => if h.interpolation ≠ "" ∧ h.interpolation = expected then some h else none

/-- The neighbor-information need `nNeedNeighboringInfo` assigned per
interpolation label in `_InitializeGroupFunctions`. -/
def nNeedOf (interp : String) : ℕ :=
  if interp = "linear" then 2
  else if interp = "quadratic" then 3
  else if interp = "cubic" then 3
  else if interp = "quartic" then 3
  else if interp = "quintic" then 3
  else if interp = "sextic" then 3
  else 0

/-- The five resolved-offset arrays computed by `_InitializeGroupFunctions`. -/
structure ResolvedOffsets where
  deriv : List ℤ
  dd : List ℤ
  ddd : List ℤ
  integ : List ℤ
  ii : List ℤ
deriving DecidableEq, Repr

/-- Set `l[start+j] := v` for every `j < len`. -/
def setRangeConst (l : List ℤ) (start len : ℕ) (v : ℤ) : List ℤ :=
  (List.range len).foldl (fun acc j => acc.set (start + j) v) l

/-- Set `l[start+j] := base + j` for every `j < len` (the per-channel offsets
into a resolved related group). -/
def setRangeSeq (l : List ℤ) (start len : ℕ) (base : ℤ) : List ℤ :=
  (List.range len).foldl (fun acc j => acc.set (start + j) (base + (j : ℤ))) l

/-- The per-group offset resolution of `_InitializeGroupFunctions`: when the
group's label needs neighboring information, walk the derivative chain (up to
third order) and the integral chain (up to second order), demoting any link
with a mismatched label; a missing first link writes `-nNeed` over the
group's channels, deeper arrays are touched only when the previous link
resolved. -/
def resolveGroup (spec : ConfigurationSpecification) (r : ResolvedOffsets) (g : Group) :
    ResolvedOffsets :=
  let nNeed := nNeedOf g.interpolation
  if nNeed = 0 then r
  else
    let r1 :=
      match demoteMismatched (FindTimeDerivativeGroup spec g)
          (GetInterpolationDerivative g.interpolation) with
      | none => { r with deriv := setRangeConst r.deriv g.offset g.dof (-(nNeed : ℤ)) }
      | some dg =>
        let ra := { r with deriv := setRangeSeq r.deriv g.offset g.dof (dg.offset : ℤ) }
        match demoteMismatched (FindTimeDerivativeGroup spec dg)
            (GetInterpolationDerivative dg.interpolation) with
        | none => { ra with dd := setRangeConst ra.dd g.offset g.dof (-(nNeed : ℤ)) }
        | some ddg =>
          let rb := { ra with dd := setRangeSeq ra.dd g.offset g.dof (ddg.offset : ℤ) }
          match demoteMismatched (FindTimeDerivativeGroup spec ddg)
              (GetInterpolationDerivative ddg.interpolation) with
          | none => { rb with ddd := setRangeConst rb.ddd g.offset g.dof (-(nNeed : ℤ)) }
          | some dddg => { rb with ddd := setRangeSeq rb.ddd g.offset g.dof (dddg.offset : ℤ) }
    match demoteMismatched (FindTimeIntegralGroup spec g)
        (GetInterpolationIntegral g.interpolation) with
    | none => { r1 with integ := setRangeConst r1.integ g.offset g.dof (-(nNeed : ℤ)) }
    | some ig =>
      let rc := { r1 with integ := setRangeSeq r1.integ g.offset g.dof (ig.offset : ℤ) }
      match demoteMismatched (FindTimeIntegralGroup spec ig)
          (GetInterpolationIntegral ig.interpolation) with
      | none => { rc with ii := setRangeConst rc.ii g.offset g.dof (-(nNeed : ℤ)) }
      | some iig => { rc with ii := setRangeSeq rc.ii g.offset g.dof (iig.offset : ℤ) }

/-- `_InitializeGroupFunctions`: all five arrays start as `-1` over the full
DOF, then every group is resolved in spec order. -/
def InitializeGroupFunctions (spec : ConfigurationSpecification) : ResolvedOffsets :=
  let dof := spec.GetDOF
  spec.vgroups.foldl (resolveGroup spec)
    ⟨List.replicate dof (-1), List.replicate dof (-1), List.replicate dof (-1),
     List.replicate dof (-1), List.replicate dof (-1)⟩

/-- `GenericTrajectory::Init`: when already initialized with an equal spec the
groups, time offset and resolved offsets are kept; otherwise the spec is
stored, its groups stable-sorted into canonical order, the time offset and
group functions recomputed.  In both cases the waypoint buffer and the two
derived time arrays are cleared and the change flag raised. -/
def Init (traj : GenericTrajectory) (spec : ConfigurationSpecification) : GenericTrajectory :=
  let t1 :=
    if traj.bInit = true ∧ traj.spec = spec then traj
    else
      let sorted : ConfigurationSpecification := ⟨sortSpecGroups spec.vgroups⟩
      let r := InitializeGroupFunctions sorted
      { traj with
        spec := sorted
        timeoffset := findTimeOffset sorted.vgroups
        vderivoffsets := r.deriv
        vddoffsets := r.dd
        vdddoffsets := r.ddd
        vintegraloffsets := r.integ
        viioffsets := r.ii }
  { t1 with
    vtrajdata := []
    vaccumtime := []
    vdeltainvtime := []
    bChanged := true
    bSamplingVerified := false
    bInit := true }

/-- `GenericTrajectory::ClearWaypoints`. -/
def ClearWaypoints (traj : GenericTrajectory) : GenericTrajectory :=
  if traj.bInit = true then
    if 0 < traj.vtrajdata.length then
      { traj with bSamplingVerified := false, bChanged := true, vtrajdata := [] }
    else traj
  else traj

/-- `GetNumWaypoints` (its `BOOST_ASSERT(_bInit)` is a precondition of every
use below). -/
def GetNumWaypoints (traj : GenericTrajectory) : ℕ :=
  traj.vtrajdata.length / traj.spec.GetDOF

/-- `GenericTrajectory::Insert` (same-spec overload): empty data returns
untouched before any precondition; otherwise the divisibility and index
bounds are asserted, the leading `copysize` scalars overwrite in place when
requested, and the remainder (or, without overwrite, all of the data) is
spliced in. -/
def Insert (traj : GenericTrajectory) (index : ℕ) (pdata : List dReal) (bOverwrite : Bool) :
    Except TrajError GenericTrajectory :=
  if traj.bInit = false then .error .assertionFailure
  else if pdata.length = 0 then .ok traj
  else if traj.spec.GetDOF = 0 then .error .assertionFailure
  else if pdata.length % traj.spec.GetDOF ≠ 0 then
    .error (.invalidArguments "data does not divide dof")
  else if ¬ (index * traj.spec.GetDOF ≤ traj.vtrajdata.length) then .error .assertionFailure
  else
    let dof := traj.spec.GetDOF
    if bOverwrite = true ∧ index * dof < traj.vtrajdata.length then
      let copysize := min pdata.length (traj.vtrajdata.length - index * dof)
      let d1 := writeSlots traj.vtrajdata (index * dof) (pdata.take copysize)
      .ok { traj with vtrajdata := d1 ++ pdata.drop copysize, bChanged := true }
    else
      .ok { traj with
        vtrajdata :=
          traj.vtrajdata.take (index * dof) ++ pdata ++ traj.vtrajdata.drop (index * dof)
        bChanged := true }

/-- The category-specific default row of `_ConvertData` for a destination
group with no source: `outputSignals` groups fill with `-1`, all others with
zero.  The identity-pose packing of `affine_transform` defaults calls
external affine-DOF helpers; it is abstracted to the zero row of the correct
length (no claim below reads filled default values). -/
def defaultGroupValues (g : Group) : List dReal :=
  if String.mk (g.name.data.take 13) = "outputSignals" then List.replicate g.dof (-1)
  else List.replicate g.dof 0

/-- `_ConvertData`: for every destination group with a compatible source
group, copy `numelements` rows channel-by-channel (the per-group copy is
`ConfigurationSpecification::ConvertGroupData`, modelled from the spec as a
verbatim channel copy); groups without a source are filled with defaults when
`fill` is set and left untouched otherwise. -/
def ConvertDataModel (traj : GenericTrajectory) (target : List dReal) (base : ℕ)
    (srcspec : ConfigurationSpecification) (pdata : List dReal) (srcbase : ℕ)
    (numelements : ℕ) (fill : Bool) : List dReal :=
  traj.spec.vgroups.foldl (fun tgt g =>
    match FindCompatibleGroup srcspec g with
    | some sg =>
        (List.range numelements).foldl (fun t e =>
          writeSlots t (base + g.offset + e * traj.spec.GetDOF)
            ((List.range g.dof).map (fun j =>
              pdata.getD (srcbase + sg.offset + e * srcspec.GetDOF + j) 0))) tgt
    | none =>
        if fill = true then
          (List.range numelements).foldl (fun t e =>
            writeSlots t (base + g.offset + e * traj.spec.GetDOF) (defaultGroupValues g)) tgt
        else tgt) target

/-- `GenericTrajectory::Insert` (foreign-spec overload): after the same
preconditions (divisibility against the foreign DOF), an equal spec delegates
to the plain overload; otherwise existing rows are overwritten through
conversion without default filling, and the remaining rows are converted into
a fresh zero row block with default filling and spliced in. -/
def InsertWithSpec (traj : GenericTrajectory) (index : ℕ) (pdata : List dReal)
    (spec : ConfigurationSpecification) (bOverwrite : Bool) :
    Except TrajError GenericTrajectory :=
  if traj.bInit = false then .error .assertionFailure
  else if pdata.length = 0 then .ok traj
  else if spec.GetDOF = 0 then .error .assertionFailure
  else if pdata.length % spec.GetDOF ≠ 0 then
    .error (.invalidArguments "data does not divide dof")
  else if ¬ (index * traj.spec.GetDOF ≤ traj.vtrajdata.length) then .error .assertionFailure
  else if traj.spec = spec then Insert traj index pdata bOverwrite
  else
    let dof := traj.spec.GetDOF
    let sdof := spec.GetDOF
    let numpoints := pdata.length / sdof
    if bOverwrite = true ∧ index * dof < traj.vtrajdata.length then
      let copyelements := min numpoints (traj.vtrajdata.length / dof - index)
      let d1 := ConvertDataModel traj traj.vtrajdata (index * dof) spec pdata 0 copyelements false
      let sourceindex := copyelements * sdof
      let index2 := index + copyelements
      if sourceindex < pdata.length then
        let numelements := (pdata.length - sourceindex) / sdof
        let vtemp := ConvertDataModel traj (List.replicate (numelements * dof) 0) 0 spec pdata
          sourceindex numelements true
        .ok { traj with
          vtrajdata := d1.take (index2 * dof) ++ vtemp ++ d1.drop (index2 * dof)
          bChanged := true }
      else .ok { traj with vtrajdata := d1, bChanged := true }
    else
      let vtemp := ConvertDataModel traj (List.replicate (numpoints * dof) 0) 0 spec pdata 0
        numpoints true
      .ok { traj with
        vtrajdata :=
          traj.vtrajdata.take (index * dof) ++ vtemp ++ traj.vtrajdata.drop (index * dof)
        bChanged := true }

/-- `GenericTrajectory::Remove`: equal indices return untouched before any
bounds check; otherwise both scaled indices must be in range and strictly
ordered, and rows `[startindex, endindex)` are erased. -/
def Remove (traj : GenericTrajectory) (startindex endindex : ℕ) :
    Except TrajError GenericTrajectory :=
  if traj.bInit = false then .error .assertionFailure
  else if startindex = endindex then .ok traj
  else if ¬ (startindex * traj.spec.GetDOF ≤ traj.vtrajdata.length ∧
      endindex * traj.spec.GetDOF ≤ traj.vtrajdata.length) then .error .assertionFailure
  else if ¬ (startindex < endindex) then .error .assertionFailure
  else .ok { traj with
    vtrajdata := traj.vtrajdata.take (startindex * traj.spec.GetDOF) ++
      traj.vtrajdata.drop (endindex * traj.spec.GetDOF)
    bChanged := true }

/-- The loop body of `_ComputeInternal` over waypoint indices `i ≥ 1`: for
each index the stored deltatime must be non-negative (else the
`ORE_InvalidState` exception naming the value, the index and the waypoint
count is thrown), the prefix sums and the reciprocals are accumulated. -/
def accumFromList (dof toff n : ℕ) (data : List dReal) :
    List ℕ → dReal → Except TrajError (List dReal × List dReal)
  | [], _ => .ok ([], [])
  | i :: rest, prev =>
    let d := data.getD (dof * i + toff) 0
    if d < 0 then .error (.invalidState d i n)
    else
      match accumFromList dof toff n data rest (prev + d) with
      | .error e => .error e
      | .ok (accs, invs) => .ok ((prev + d) :: accs, (1 / d) :: invs)

/-- `_ComputeInternal`: nothing to do when unchanged; without a time offset
the derived arrays are emptied; with zero waypoints the routine returns early
(leaving the change flag raised, exactly as the source's early `return`);
otherwise `accum[0]` is the stored start time and the loop accumulates the
remaining rows.  `1/d` on a zero deltatime is ±inf in the source and `0`
here; the spec forbids reading `invdelta` entries of zero-length segments and
no theorem does. -/
def ComputeInternal (traj : GenericTrajectory) : Except TrajError GenericTrajectory :=
  if traj.bChanged = false then .ok traj
  else if traj.timeoffset < 0 then
    .ok { traj with vaccumtime := [], vdeltainvtime := [], bChanged := false,
                    bSamplingVerified := false }
  else
    let n := GetNumWaypoints traj
    if n = 0 then .ok { traj with vaccumtime := [], vdeltainvtime := [] }
    else
      let toff := traj.timeoffset.toNat
      let a0 := traj.vtrajdata.getD toff 0
      match accumFromList traj.spec.GetDOF toff n traj.vtrajdata (List.range' 1 (n - 1)) a0 with
      | .error e => .error e
      | .ok (accs, invs) =>
        .ok { traj with vaccumtime := a0 :: accs, vdeltainvtime := (1 / a0) :: invs,
                        bChanged := false, bSamplingVerified := false }

/-- `GetDuration`: rebuild lazily, then the last accumulated time (0 when
empty). -/
def GetDuration (traj : GenericTrajectory) : Except TrajError dReal :=
  if traj.bInit = false then .error .assertionFailure
  else (ComputeInternal traj).map (fun t => t.vaccumtime.getLastD 0)

/-- `std::lower_bound` on the sorted accumulated-time array: the index of the
first element `≥ t` (the length when all are below `t`). -/
def lowerBoundIdx (l : List dReal) (t : dReal) : ℕ :=
  l.findIdx (fun x => decide (t ≤ x))

/-- `_InterpolatePrevious`: the row at `ipoint`, or at `ipoint+1` when the
fraction `invdelta[ipoint+1]·δ` exceeds `1 − ε` (and a next row exists). -/
def interpPrevious (traj : GenericTrajectory) (g : Group) (ipoint : ℕ) (deltatime : dReal)
    (data : List dReal) : List dReal :=
  let dof := traj.spec.GetDOF
  let offset0 := ipoint * dof + g.offset
  let offset :=
    if (ipoint + 1) * dof < traj.vtrajdata.length ∧
        1 - g_fEpsilon < traj.vdeltainvtime.getD (ipoint + 1) 0 * deltatime then
      offset0 + dof
    else offset0
  writeSlots data g.offset (traj.sliceData offset g.dof)

/-- `_InterpolateNext`: `ipoint` is bumped to the next waypoint whenever one
exists; then, when `δ ≤ ε` and the (bumped) index is positive, the previous
row is chosen instead. -/
def interpNext (traj : GenericTrajectory) (g : Group) (ipoint : ℕ) (deltatime : dReal)
    (data : List dReal) : List dReal :=
  let dof := traj.spec.GetDOF
  let ip := if (ipoint + 1) * dof < traj.vtrajdata.length then ipoint + 1 else ipoint
  let offset := ip * dof + g.offset
  let offset2 := if deltatime ≤ g_fEpsilon ∧ 0 < ip then offset - dof else offset
  writeSlots data g.offset (traj.sliceData offset2 g.dof)

/-- `_InterpolateLinear`: without a resolved derivative offset the convex
combination with fraction `f = invdelta[ipoint+1]·δ`; with one, the value at
`ipoint` plus `δ` times the derivative stored at the NEXT waypoint
`ipoint+1`. -/
def interpLinear (traj : GenericTrajectory) (g : Group) (ipoint : ℕ) (deltatime : dReal)
    (data : List dReal) : List dReal :=
  let dof := traj.spec.GetDOF
  let offset := ipoint * dof
  let derivoffset := traj.vderivoffsets.getD g.offset (-1)
  if derivoffset < 0 then
    let f := traj.vdeltainvtime.getD (ipoint + 1) 0 * deltatime
    writeSlots data g.offset ((List.range g.dof).map (fun i =>
      traj.readData (offset + g.offset + i) * (1 - f) +
        f * traj.readData (dof + offset + g.offset + i)))
  else
    writeSlots data g.offset ((List.range g.dof).map (fun i =>
      traj.readData (offset + g.offset + i) +
        deltatime * traj.readData (dof + offset + derivoffset.toNat + i)))

/-- `_InterpolateQuadratic`: with a derivative group, the parabola through
the endpoint derivatives; otherwise the closed form from the integral group
(whose offset the source reads unguarded — a negative resolved offset there
is an out-of-range access, embedded through the signed read). -/
def interpQuadratic (traj : GenericTrajectory) (g : Group) (ipoint : ℕ) (deltatime : dReal)
    (data : List dReal) : List dReal :=
  let dof := traj.spec.GetDOF
  let offset := ipoint * dof
  if g_fEpsilon < deltatime then
    let derivoffset := traj.vderivoffsets.getD g.offset (-1)
    if 0 ≤ derivoffset then
      writeSlots data g.offset ((List.range g.dof).map (fun i =>
        let deriv0 := traj.readData (offset + derivoffset.toNat + i)
        let deriv1 := traj.readData (dof + offset + derivoffset.toNat + i)
        let coeff := (1/2) * traj.vdeltainvtime.getD (ipoint + 1) 0 * (deriv1 - deriv0)
        traj.readData (offset + g.offset + i) + deltatime * (deriv0 + deltatime * coeff)))
    else
      let ideltatime := traj.vdeltainvtime.getD (ipoint + 1) 0
      let ideltatime2 := ideltatime * ideltatime
      let integraloffset := traj.vintegraloffsets.getD g.offset (-1)
      writeSlots data g.offset ((List.range g.dof).map (fun (i : ℕ) =>
        let integral0 := traj.readDataZ ((offset : ℤ) + integraloffset + (i : ℤ))
        let integral1 := traj.readDataZ ((dof : ℤ) + (offset : ℤ) + integraloffset + (i : ℤ))
        let value0 := traj.readData (offset + g.offset + i)
        let value1 := traj.readData (dof + offset + g.offset + i)
        let c1TimesDelta := 6 * (integral1 - integral0) * ideltatime - 4 * value0 - 2 * value1
        let c1 := c1TimesDelta * ideltatime
        let c2 := (value1 - value0 - c1TimesDelta) * ideltatime2
        value0 + deltatime * (c1 + deltatime * c2)))
  else
    writeSlots data g.offset (traj.sliceData (offset + g.offset) g.dof)

/-- `_InterpolateCubic`: the Hermite form from the derivative group when
resolved, else the closed form from the integral and second-integral groups;
with neither, the `ORE_InvalidArguments` exception `cubic interpolation does
not have all data` is thrown.  A `δ ≤ ε` sample copies the row at `ipoint`
without touching the related groups. -/
def interpCubic (traj : GenericTrajectory) (g : Group) (ipoint : ℕ) (deltatime : dReal)
    (data : List dReal) : Except TrajError (List dReal) :=
  let dof := traj.spec.GetDOF
  let offset := ipoint * dof
  if g_fEpsilon < deltatime then
    let derivoffset := traj.vderivoffsets.getD g.offset (-1)
    let integoffset := traj.vintegraloffsets.getD g.offset (-1)
    let iioffset := traj.viioffsets.getD g.offset (-1)
    if 0 ≤ derivoffset then
      let ideltatime := traj.vdeltainvtime.getD (ipoint + 1) 0
      let ideltatime2 := ideltatime * ideltatime
      let ideltatime3 := ideltatime2 * ideltatime
      .ok (writeSlots data g.offset ((List.range g.dof).map (fun i =>
        let deriv0 := traj.readData (offset + derivoffset.toNat + i)
        let deriv1 := traj.readData (dof + offset + derivoffset.toNat + i)
        let px := traj.readData (dof + offset + g.offset + i) -
          traj.readData (offset + g.offset + i)
        let c3 := (deriv1 + deriv0) * ideltatime2 - 2 * px * ideltatime3
        let c2 := 3 * px * ideltatime2 - (2 * deriv0 + deriv1) * ideltatime
        traj.readData (offset + g.offset + i) +
          deltatime * (deriv0 + deltatime * (c2 + deltatime * c3)))))
    else if 0 ≤ integoffset ∧ 0 ≤ iioffset then
      let ideltatime := traj.vdeltainvtime.getD (ipoint + 1) 0
      let ideltatime2 := ideltatime * ideltatime
      let ideltatime3 := ideltatime2 * ideltatime
      let ideltatime4 := ideltatime3 * ideltatime
      let ideltatime5 := ideltatime4 * ideltatime
      .ok (writeSlots data g.offset ((List.range g.dof).map (fun i =>
        let integ0 := traj.readData (offset + integoffset.toNat + i)
        let idiff := traj.readData (dof + offset + integoffset.toNat + i) - integ0
        let temp := traj.readData (dof + offset + iioffset.toNat + i) -
          traj.readData (offset + iioffset.toNat + i) - integ0 * deltatime
        let c3 := 10 * (traj.readData (dof + offset + g.offset + i) -
          traj.readData (offset + g.offset + i)) * ideltatime3 -
          60 * idiff * ideltatime4 + 120 * temp * ideltatime5
        let c2 := (18 * traj.readData (offset + g.offset + i) -
          12 * traj.readData (dof + offset + g.offset + i)) * ideltatime2 +
          84 * idiff * ideltatime3 - 180 * temp * ideltatime4
        let c1 := (-9 * traj.readData (offset + g.offset + i) +
          3 * traj.readData (dof + offset + g.offset + i)) * ideltatime -
          24 * idiff * ideltatime2 + 60 * temp * ideltatime3
        traj.readData (offset + g.offset + i) +
          deltatime * (c1 + deltatime * (c2 + deltatime * c3)))))
    else .error (.invalidArguments "cubic interpolation does not have all data")
  else .ok (writeSlots data g.offset (traj.sliceData (offset + g.offset) g.dof))

/-- `_InterpolateQuartic`: endpoint-derivative plus second-derivative form,
or derivative plus integral form; with neither, the same exception the
source throws there (its message again says `cubic`). -/
def interpQuartic (traj : GenericTrajectory) (g : Group) (ipoint : ℕ) (deltatime : dReal)
    (data : List dReal) : Except TrajError (List dReal) :=
  let dof := traj.spec.GetDOF
  let offset := ipoint * dof
  if g_fEpsilon < deltatime then
    let derivoffset := traj.vderivoffsets.getD g.offset (-1)
    let ddoffset := traj.vddoffsets.getD g.offset (-1)
    let integoffset := traj.vintegraloffsets.getD g.offset (-1)
    if 0 ≤ derivoffset ∧ 0 ≤ ddoffset then
      let ideltatime := traj.vdeltainvtime.getD (ipoint + 1) 0
      let ideltatime2 := ideltatime * ideltatime
      let ideltatime3 := ideltatime2 * ideltatime
      .ok (writeSlots data g.offset ((List.range g.dof).map (fun i =>
        let deriv0 := traj.readData (offset + derivoffset.toNat + i)
        let deriv1 := traj.readData (dof + offset + derivoffset.toNat + i)
        let dd0 := traj.readData (offset + ddoffset.toNat + i)
        let dd1 := traj.readData (dof + offset + ddoffset.toNat + i)
        let c4 := -(1/2) * (deriv1 - deriv0) * ideltatime3 + (dd0 + dd1) * ideltatime2 * (1/4)
        let c3 := (deriv1 - deriv0) * ideltatime2 - (2 * dd0 + dd1) * ideltatime / 3
        traj.readData (offset + g.offset + i) +
          deltatime * (deriv0 + deltatime * ((1/2) * dd0 + deltatime * (c3 + deltatime * c4))))))
    else if 0 ≤ derivoffset ∧ 0 ≤ integoffset then
      let ideltatime := traj.vdeltainvtime.getD (ipoint + 1) 0
      let ideltatime2 := ideltatime * ideltatime
      let ideltatime3 := ideltatime2 * ideltatime
      let ideltatime4 := ideltatime3 * ideltatime
      let ideltatime5 := ideltatime4 * ideltatime
      .ok (writeSlots data g.offset ((List.range g.dof).map (fun i =>
        let deriv0 := traj.readData (offset + derivoffset.toNat + i)
        let deriv1 := traj.readData (dof + offset + derivoffset.toNat + i)
        let pos0 := traj.readData (offset + g.offset + i)
        let pos1 := traj.readData (dof + offset + g.offset + i)
        let idiff := traj.readData (dof + offset + integoffset.toNat + i) -
          traj.readData (offset + integoffset.toNat + i)
        let c4 := (5/2) * (deriv1 - deriv0) * ideltatime3 - 15 * (pos0 + pos1) * ideltatime4 +
          30 * idiff * ideltatime5
        let c3 := (6 * deriv0 - 4 * deriv1) * ideltatime2 + (32 * pos0 + 28 * pos1) * ideltatime3 -
          60 * idiff * ideltatime4
        let c2 := (-(9/2) * deriv0 + (3/2) * deriv1) * ideltatime -
          (18 * pos0 + 12 * pos1) * ideltatime2 + 30 * idiff * ideltatime3
        pos0 + deltatime * (deriv0 + deltatime * (c2 + deltatime * (c3 + deltatime * c4))))))
    else .error (.invalidArguments "cubic interpolation does not have all data")
  else .ok (writeSlots data g.offset (traj.sliceData (offset + g.offset) g.dof))

/-- `_InterpolateQuintic`: requires derivative and second-derivative groups;
otherwise the same exception (message again `cubic`). -/
def interpQuintic (traj : GenericTrajectory) (g : Group) (ipoint : ℕ) (deltatime : dReal)
    (data : List dReal) : Except TrajError (List dReal) :=
  let dof := traj.spec.GetDOF
  let offset := ipoint * dof
  if g_fEpsilon < deltatime then
    let derivoffset := traj.vderivoffsets.getD g.offset (-1)
    let ddoffset := traj.vddoffsets.getD g.offset (-1)
    if 0 ≤ derivoffset ∧ 0 ≤ ddoffset then
      let ideltatime := traj.vdeltainvtime.getD (ipoint + 1) 0
      let ideltatime2 := ideltatime * ideltatime
      let ideltatime3 := ideltatime2 * ideltatime
      let ideltatime4 := ideltatime2 * ideltatime2
      let ideltatime5 := ideltatime4 * ideltatime
      .ok (writeSlots data g.offset ((List.range g.dof).map (fun i =>
        let p0 := traj.readData (offset + g.offset + i)
        let px := traj.readData (dof + offset + g.offset + i) - p0
        let deriv0 := traj.readData (offset + derivoffset.toNat + i)
        let deriv1 := traj.readData (dof + offset + derivoffset.toNat + i)
        let dd0 := traj.readData (offset + ddoffset.toNat + i)
        let dd1 := traj.readData (dof + offset + ddoffset.toNat + i)
        let c5 := (-(1/2) * dd0 + dd1 * (1/2)) * ideltatime3 -
          (3 * deriv0 + 3 * deriv1) * ideltatime4 + px * 6 * ideltatime5
        let c4 := ((3/2) * dd0 - dd1) * ideltatime2 +
          (8 * deriv0 + 7 * deriv1) * ideltatime3 - px * 15 * ideltatime4
        let c3 := (-(3/2) * dd0 + dd1 * (1/2)) * ideltatime +
          (-6 * deriv0 - 4 * deriv1) * ideltatime2 + px * 10 * ideltatime3
        p0 + deltatime * (deriv0 + deltatime * ((1/2) * dd0 +
          deltatime * (c3 + deltatime * (c4 + deltatime * c5)))))))
    else .error (.invalidArguments "cubic interpolation does not have all data")
  else .ok (writeSlots data g.offset (traj.sliceData (offset + g.offset) g.dof))

/-- `_InterpolateSextic`: requires first, second and third derivative groups;
otherwise the same exception (message again `cubic`). -/
def interpSextic (traj : GenericTrajectory) (g : Group) (ipoint : ℕ) (deltatime : dReal)
    (data : List dReal) : Except TrajError (List dReal) :=
  let dof := traj.spec.GetDOF
  let offset := ipoint * dof
  if g_fEpsilon < deltatime then
    let derivoffset := traj.vderivoffsets.getD g.offset (-1)
    let ddoffset := traj.vddoffsets.getD g.offset (-1)
    let dddoffset := traj.vdddoffsets.getD g.offset (-1)
    if 0 ≤ derivoffset ∧ 0 ≤ ddoffset ∧ 0 ≤ dddoffset then
      let ideltatime := traj.vdeltainvtime.getD (ipoint + 1) 0
      let ideltatime2 := ideltatime * ideltatime
      let ideltatime3 := ideltatime2 * ideltatime
      let ideltatime4 := ideltatime2 * ideltatime2
      let ideltatime5 := ideltatime4 * ideltatime
      .ok (writeSlots data g.offset ((List.range g.dof).map (fun i =>
        let p0 := traj.readData (offset + g.offset + i)
        let deriv0 := traj.readData (offset + derivoffset.toNat + i)
        let deriv1 := traj.readData (dof + offset + derivoffset.toNat + i)
        let dd0 := traj.readData (offset + ddoffset.toNat + i)
        let dd1 := traj.readData (dof + offset + ddoffset.toNat + i)
        let ddd0 := traj.readData (offset + dddoffset.toNat + i)
        let ddd1 := traj.readData (dof + offset + dddoffset.toNat + i)
        let c6 := (-dd0 - dd1) * (1/2) * ideltatime4 + (-ddd0 + ddd1) / 12 * ideltatime3 +
          (-deriv0 + deriv1) * ideltatime5
        let c5 := ((8/5) * dd0 + (7/5) * dd1) * ideltatime3 +
          ((3/10) * ddd0 - ddd1 * (1/5)) * ideltatime2 + (3 * deriv0 - 3 * deriv1) * ideltatime4
        let c4 := (-(3/2) * dd0 - dd1) * ideltatime2 +
          (-(3/8) * ddd0 + ddd1 * (1/8)) * ideltatime + (-(5/2) * deriv0 + (5/2) * deriv1) * ideltatime3
        p0 + deltatime * (deriv0 + deltatime * ((1/2) * dd0 + deltatime * (ddd0 / 6 +
          deltatime * (c4 + deltatime * (c5 + deltatime * c6))))))))
    else .error (.invalidArguments "cubic interpolation does not have all data")
  else .ok (writeSlots data g.offset (traj.sliceData (offset + g.offset) g.dof))

/-- `_InterpolateMax`: the componentwise maximum of the two endpoint rows. -/
def interpMax (traj : GenericTrajectory) (g : Group) (ipoint : ℕ) (_deltatime : dReal)
    (data : List dReal) : List dReal :=
  let dof := traj.spec.GetDOF
  let offset := ipoint * dof + g.offset
  writeSlots data g.offset ((List.range g.dof).map (fun i =>
    max (traj.readData (offset + i)) (traj.readData (dof + offset + i))))

/-- Whether a group name is `ikparam`-prefixed; such groups are dispatched to
the rotation-aware kernel variants in the source. -/
def isIkGroupName (name : String) : Bool :=
  String.mk (name.data.take 7) = "ikparam"

/-- The per-group kernel binding of `_InitializeGroupFunctions`, dispatched
on the interpolation label (`max` and the empty label bind, every other
unknown label binds nothing and the group is skipped by `Sample`).  The
rotation-aware `ikparam` variants post-process the scalar kernel's output
with quaternion/direction slerp — irrational operations with no exact
rational embedding — so the scalar kernel stands here, and every theorem
whose statement reaches this dispatch assumes no `ikparam`-named group. -/
def groupInterpolator (traj : GenericTrajectory) (g : Group) :
    Option (ℕ → dReal → List dReal → Except TrajError (List dReal)) :=
  if g.interpolation = "previous" then
    some (fun ip dt d => .ok (interpPrevious traj g ip dt d))
  else if g.interpolation = "next" then
    some (fun ip dt d => .ok (interpNext traj g ip dt d))
  else if g.interpolation = "linear" then
    some (fun ip dt d => .ok (interpLinear traj g ip dt d))
  else if g.interpolation = "quadratic" then
    some (fun ip dt d => .ok (interpQuadratic traj g ip dt d))
  else if g.interpolation = "cubic" then some (interpCubic traj g)
  else if g.interpolation = "quartic" then some (interpQuartic traj g)
  else if g.interpolation = "quintic" then some (interpQuintic traj g)
  else if g.interpolation = "sextic" then some (interpSextic traj g)
  else if g.interpolation = "max" then
    some (fun ip dt d => .ok (interpMax traj g ip dt d))
  else if g.interpolation = "" then
    some (fun ip dt d => .ok (interpNext traj g ip dt d))
  else none

/-- The clamping of the intra-segment offset into `[0, waypointdeltatime]`
that `Sample` performs against floating-point drift. -/
def clampDelta (raw wpdt : dReal) : dReal :=
  if raw < 0 then 0 else if wpdt < raw then wpdt else raw

/-- The interpolator loop of `Sample`: every group with a bound kernel writes
its channels into the output row, in spec order, stopping at the first thrown
exception. -/
def runInterpolators (traj : GenericTrajectory) (index1 : ℕ) (deltatime : dReal)
    (data : List dReal) : Except TrajError (List dReal) :=
  traj.spec.vgroups.foldlM (fun d g =>
    match groupInterpolator traj g with
    | none => .ok d
    | some f => f index1 deltatime d) data

/-- The body of `GenericTrajectory::Sample` after the lazy rebuild, on the
rebuilt state: the waypoint-count assert, then — a time at or past the
duration returns the last row verbatim; a time at or before the first
accumulated time returns the first row with the requested time in the
deltatime slot; otherwise the clamped intra-segment offset drives every
bound kernel and lands in the deltatime slot. -/
def SampleComputed (t : GenericTrajectory) (time : dReal) : Except TrajError (List dReal) :=
  if t.vtrajdata.length < t.spec.GetDOF then
    .error (.invalidArguments "trajectory needs at least one point to sample from")
  else if t.vaccumtime.getLastD 0 ≤ time then
    .ok (writeSlots (List.replicate t.spec.GetDOF 0) 0
      (t.sliceData (t.vtrajdata.length - t.spec.GetDOF) t.spec.GetDOF))
  else if lowerBoundIdx t.vaccumtime time = 0 then
    .ok ((writeSlots (List.replicate t.spec.GetDOF 0) 0
      (t.sliceData 0 t.spec.GetDOF)).set t.timeoffset.toNat time)
  else
    match
      runInterpolators t (lowerBoundIdx t.vaccumtime time - 1)
        (clampDelta (time - t.vaccumtime.getD (lowerBoundIdx t.vaccumtime time - 1) 0)
          (t.readData (t.spec.GetDOF * lowerBoundIdx t.vaccumtime time + t.timeoffset.toNat)))
        (List.replicate t.spec.GetDOF 0) with
    | .error e => .error e
    | .ok d =>
      .ok (d.set t.timeoffset.toNat
        (clampDelta (time - t.vaccumtime.getD (lowerBoundIdx t.vaccumtime time - 1) 0)
          (t.readData (t.spec.GetDOF * lowerBoundIdx t.vaccumtime time + t.timeoffset.toNat))))

/-- `GenericTrajectory::Sample` (internal-spec overload, non-verbose debug
level, so `_VerifySampling` is not run): the init/time-offset/time asserts,
the lazy rebuild, then `SampleComputed` on the rebuilt state. -/
def Sample (traj : GenericTrajectory) (time : dReal) : Except TrajError (List dReal) :=
  if traj.bInit = false then .error .assertionFailure
  else if traj.timeoffset < 0 then .error .assertionFailure
  else if time < 0 then .error .assertionFailure
  else
    match ComputeInternal traj with
    | .error e => .error e
    | .ok t => SampleComputed t time

/-- The state after a successful lazy rebuild (the trajectory itself when
the rebuild fails; the concrete uses below never hit that default). -/
def computedOf (traj : GenericTrajectory) : GenericTrajectory :=
  match ComputeInternal traj with
  | .ok t => t
  | .error _ => traj

/-- One field of the binary trajectory stream.  The byte-level encoding
(little-endian fixed-width integers, raw IEEE doubles, length-prefixed byte
runs) is abstracted to one token per written field; reading a field of the
wrong shape — which at byte level would silently reinterpret memory — is a
parse failure here, a path the round-trip never takes. -/
inductive BinToken where
  | u16 (v : ℕ)
  | u32 (v : ℕ)
  | intv (v : ℤ)
  | str (s : String)
  | real (q : dReal)
deriving DecidableEq, Repr

/-- `WriteBinaryUInt16` (the value is truncated to 16 bits by the cast at
each call site). -/
def writeBinaryUInt16 (v : ℕ) : List BinToken := [.u16 (v % 65536)]

/-- `WriteBinaryInt` (a 32-bit int; every written value is a group offset or
dof, non-negative and small in any well-formed spec). -/
def writeBinaryInt (v : ℤ) : List BinToken := [.intv v]

/-- `WriteBinaryString`: the 16-bit length then, only when non-empty, the
characters.  The source asserts `length ≤ 0xffff`; the modulo mirrors the
`uint16_t` cast and theorems hypothesize lengths in range. -/
def writeBinaryString (s : String) : List BinToken :=
  .u16 (s.length % 65536) :: (if s.length = 0 then [] else [.str s])

/-- `WriteBinaryVector`: the element count truncated to `uint32`, then that
many scalars. -/
def writeBinaryVector (v : List dReal) : List BinToken :=
  .u32 (v.length % 4294967296) :: (v.take (v.length % 4294967296)).map .real

/-- `ReadBinaryUInt16`. -/
def readBinaryUInt16 : List BinToken → Option (ℕ × List BinToken)
  | .u16 v :: rest => some (v, rest)
  | _ => none

/-- `ReadBinaryInt`. -/
def readBinaryInt : List BinToken → Option (ℤ × List BinToken)
  | .intv v :: rest => some (v, rest)
  | _ => none

/-- `ReadBinaryString`: the length, then exactly that many characters (an
empty length consumes nothing further, as the writer emitted nothing). -/
def readBinaryString : List BinToken → Option (String × List BinToken)
  | .u16 0 :: rest => some ("", rest)
  | .u16 len :: .str s :: rest => if s.length = len then some (s, rest) else none
  | _ => none

/-- Read `n` scalars. -/
def readReals : ℕ → List BinToken → Option (List dReal × List BinToken)
  | 0, rest => some ([], rest)
  | n + 1, .real q :: rest =>
    match readReals n rest with
    | some (v, r) => some (q :: v, r)
    | none => none
  | _ + 1, _ => none

/-- `ReadBinaryVector`: the count then that many scalars. -/
def readBinaryVector : List BinToken → Option (List dReal × List BinToken)
  | .u32 n :: rest => readReals n rest
  | _ => none

/-- The serialized form of one group: name, offset, dof, interpolation. -/
def writeGroupTokens (g : Group) : List BinToken :=
  writeBinaryString g.name ++ writeBinaryInt (g.offset : ℤ) ++ writeBinaryInt (g.dof : ℤ) ++
    writeBinaryString g.interpolation

/-- Modelled from the spec for the readable payloads: a readable annotation
is stored verbatim as an `(id, payload)` string pair and serializes as its
id, its payload and the `StringReadable` reader-type tag (the source obtains
the payload through the readable's own JSON/XML serializer, external to the
provided sources). -/
def writeReadableTokens (r : String × String) : List BinToken :=
  writeBinaryString r.1 ++ writeBinaryString r.2 ++ writeBinaryString "StringReadable"

/-- `GenericTrajectory::serialize` in binary mode (the default: no
`TSO_SerializeAsXML` option): magic, version 3, the group table, the
waypoint buffer, the description, then the readable annotations. -/
def serializeTraj (traj : GenericTrajectory) : List BinToken :=
  writeBinaryUInt16 0x62ff ++ writeBinaryUInt16 3 ++
    writeBinaryUInt16 traj.spec.vgroups.length ++
    (traj.spec.vgroups.map writeGroupTokens).flatten ++
    writeBinaryVector traj.vtrajdata ++
    writeBinaryString traj.description ++
    writeBinaryUInt16 traj.readables.length ++
    (traj.readables.map writeReadableTokens).flatten

/-- Read one group record; a negative stored offset or dof leaves the states
representable by the model (the source would store it and index out of range
later). -/
def readGroupTokens (s : List BinToken) : Option (Group × List BinToken) := do
  let (name, s) ← readBinaryString s
  let (off, s) ← readBinaryInt s
  let (dof, s) ← readBinaryInt s
  let (interp, s) ← readBinaryString s
  if 0 ≤ off ∧ 0 ≤ dof then some (⟨name, off.toNat, dof.toNat, interp⟩, s) else none

/-- Read `n` group records. -/
def readGroupList : ℕ → List BinToken → Option (List Group × List BinToken)
  | 0, s => some ([], s)
  | n + 1, s => do
    let (g, s) ← readGroupTokens s
    let (gs, s) ← readGroupList n s
    some (g :: gs, s)

/-- Read `n` readable annotations.  For version ≥ 3 the reader-type tag is
read and a `HierarchicalXMLReadable` payload would be handed to the external
XML parser — not modelled (the serializer model never emits that tag); any
other tag stores the payload verbatim as a string readable, as does
version 2. -/
def readReadableList (version : ℕ) :
    ℕ → List BinToken → Option (List (String × String) × List BinToken)
  | 0, s => some ([], s)
  | n + 1, s => do
    let (xmlid, s) ← readBinaryString s
    let (payload, s) ← readBinaryString s
    if 3 ≤ version then do
      let (readerType, s) ← readBinaryString s
      if readerType = "HierarchicalXMLReadable" then none
      else do
        let (rs, s) ← readReadableList version n s
        some ((xmlid, payload) :: rs, s)
    else do
      let (rs, s) ← readReadableList version n s
      some ((xmlid, payload) :: rs, s)

/-- `GenericTrajectory::deserialize`: a stream whose first two bytes are not
the magic is rewound and delegated to the external textual reader (`none`
here); an unsupported version throws (also `none` here, the model conflating
the two failure exits it never takes on round trips).  Otherwise the group
table is read into the spec, `Init` re-initializes (sorting the groups and
clearing the buffer), the waypoint data and description are read back, the
readable set is cleared and, for versions ≥ 2, re-read. -/
def deserializeTraj (traj : GenericTrajectory) (stream : List BinToken) :
    Option GenericTrajectory := do
  let (magic, s) ← readBinaryUInt16 stream
  if magic ≠ 0x62ff then none
  else do
    let (version, s) ← readBinaryUInt16 s
    if 3 < version ∨ version < 1 then none
    else do
      let (numGroups, s) ← readBinaryUInt16 s
      let (groups, s) ← readGroupList numGroups s
      let t1 := Init { traj with bInit := false } ⟨groups⟩
      let (vdata, s) ← readBinaryVector s
      let (desc, s) ← readBinaryString s
      if 2 ≤ version then do
        let (numReadables, s) ← readBinaryUInt16 s
        let (readables, _s) ← readReadableList version numReadables s
        some { t1 with vtrajdata := vdata, description := desc, readables := readables }
      else
        some { t1 with vtrajdata := vdata, description := desc, readables := [] }

/-- Canonical ordering of a group list: no later group compares strictly
below an earlier one under the `SortGroups` comparator — equivalently, known
categories appear in precedence-rank order before all unknown categories,
which appear in lexicographic order. -/
def GroupsSorted (l : List Group) : Prop :=
  l.Pairwise (fun a b => sortGroupsLt b a = false)

instance (l : List Group) : Decidable (GroupsSorted l) :=
  inferInstanceAs (Decidable (l.Pairwise (fun a b => sortGroupsLt b a = false)))

/-- One mutating waypoint operation of the public interface. -/
inductive TrajOp where
  | insertOp (index : ℕ) (data : List dReal) (overwrite : Bool)
  | insertWithSpecOp (index : ℕ) (data : List dReal) (spec : ConfigurationSpecification)
      (overwrite : Bool)
  | removeOp (startindex endindex : ℕ)
  | clearOp
deriving DecidableEq

/-- Apply one mutating operation. -/
def applyOp (traj : GenericTrajectory) : TrajOp → Except TrajError GenericTrajectory
  | .insertOp index data overwrite => Insert traj index data overwrite
  | .insertWithSpecOp index data spec overwrite => InsertWithSpec traj index data spec overwrite
  | .removeOp s e => Remove traj s e
  | .clearOp => .ok (ClearWaypoints traj)

/-- Apply a sequence of mutating operations, stopping at the first failed
precondition. -/
def applyOps (traj : GenericTrajectory) : List TrajOp → Except TrajError GenericTrajectory
  | [] => .ok traj
  | op :: ops =>
    match applyOp traj op with
    | .error e => .error e
    | .ok t => applyOps t ops

/-- Force a successful trajectory out of an operation result (the failure
default is never taken on the concrete inputs below). -/
def forceOk (r : Except TrajError GenericTrajectory) : GenericTrajectory :=
  match r with
  | .ok t => t
  | .error _ => emptyTrajectory

/-- A 1-DOF `joint_values` group under the `next` interpolation. -/
def gValNext : Group := ⟨"joint_values r", 0, 1, "next"⟩

/-- The `deltatime` group at offset 1. -/
def gTime1 : Group := ⟨"deltatime", 1, 1, ""⟩

/-- The two-channel spec `{joint_values(next), deltatime}` of scenario S3. -/
def specNext : ConfigurationSpecification := ⟨[gValNext, gTime1]⟩

/-- C1 witness input: two waypoints `(5, dt 0)` and `(9, dt 1/2)`; positive
duration `1/2`. -/
def trajC1wit : GenericTrajectory :=
  forceOk (Insert (Init emptyTrajectory specNext) 0 [5, 0, 9, 1/2] false)

/-- C1 counterexample input: two waypoints `(5, dt 0)` and `(7, dt 0)` whose
total duration is zero while first and last rows differ. -/
def trajC1cex : GenericTrajectory :=
  forceOk (Insert (Init emptyTrajectory specNext) 0 [5, 0, 7, 0] false)

/-- A 1-DOF linear group resolved against a derivative group labeled `next`
(the expected derivative label of `linear`). -/
def gValLin : Group := ⟨"joint_values r", 0, 1, "linear"⟩

/-- The matching velocity group, labeled `next` so the derivative chain of
`gValLin` resolves. -/
def gVelNext : Group := ⟨"joint_velocities r", 1, 1, "next"⟩

/-- The `deltatime` group at offset 2. -/
def gTime2 : Group := ⟨"deltatime", 2, 1, ""⟩

/-- C3 witness spec: `{joint_values(linear), joint_velocities(next),
deltatime}`. -/
def specC3 : ConfigurationSpecification := ⟨[gValLin, gVelNext, gTime2]⟩

/-- C3 witness input: waypoints `(0, v 2, dt 0)` and `(1, v 2, dt 1/2)`. -/
def trajC3wit : GenericTrajectory :=
  forceOk (Insert (Init emptyTrajectory specC3) 0 [0, 2, 0, 1, 2, 1/2] false)

/-- C4 counterexample input: a single waypoint whose `deltatime` (the start
time) is `-1`. -/
def trajC4cex : GenericTrajectory :=
  forceOk (Insert (Init emptyTrajectory specNext) 0 [5, -1] false)

/-- C4 witness input: second waypoint with `deltatime = -2`. -/
def trajC4wit : GenericTrajectory :=
  forceOk (Insert (Init emptyTrajectory specNext) 0 [0, 0, 1, -2] false)

/-- C5 inputs: waypoints `(0, dt 0)` and `(1, dt 1)` under `next`
interpolation (scenario S3). -/
def trajC5 : GenericTrajectory :=
  forceOk (Insert (Init emptyTrajectory specNext) 0 [0, 0, 1, 1] false)

/-- C2 witness input: the C3 spec and data plus a description and one
readable annotation. -/
def trajC2wit : GenericTrajectory :=
  { trajC3wit with description := "t", readables := [("x", "p")] }

/-- A group of unknown category, for exercising the lexicographic tail of
the canonical order. -/
def gCustomA : Group := ⟨"outputSignals a", 3, 1, ""⟩

/-- C6 witness spec: known and unknown categories out of order. -/
def specC6 : ConfigurationSpecification := ⟨[gCustomA, gValLin, gVelNext, gTime2]⟩

/-- C6 counterexample input: an initialized trajectory with two waypoints. -/
def trajC6cex : GenericTrajectory :=
  forceOk (Insert (Init emptyTrajectory specNext) 0 [0, 0, 1, 1] false)

/-- C7 inputs: an initialized trajectory with two waypoints. -/
def trajC7 : GenericTrajectory :=
  forceOk (Insert (Init emptyTrajectory specNext) 0 [0, 0, 1, 1] false)

/-- A 1-DOF cubic group with no derivative or integral group anywhere in its
spec. -/
def gValCubic : Group := ⟨"joint_values r", 0, 1, "cubic"⟩

/-- C8 spec: `{joint_values(cubic), deltatime}` — the cubic group's
derivative chain is unresolvable and no integral pair exists. -/
def specC8 : ConfigurationSpecification := ⟨[gValCubic, gTime1]⟩

/-- C8 input: waypoints `(0, dt 0)` and `(1, dt 1)` under the unsamplable
cubic group. -/
def trajC8in : GenericTrajectory :=
  forceOk (Insert (Init emptyTrajectory specC8) 0 [0, 0, 1, 1] false)

/-- C9 witness: a freshly initialized empty trajectory over the C3 spec. -/
def trajC9wit : GenericTrajectory := Init emptyTrajectory specC3

/-- A foreign one-group spec for the converting insert of the C9 witness. -/
def specC9src : ConfigurationSpecification := ⟨[⟨"joint_values r", 0, 1, "linear"⟩]⟩

/-- C9 witness operation sequence: plain insert, overwriting insert,
converting insert from a foreign spec, remove, clear, insert again. -/
def opsC9 : List TrajOp :=
  [.insertOp 0 [0, 2, 0, 1, 2, 1/2] false,
   .insertOp 1 [4, 5, 6, 7, 8, 9] true,
   .insertWithSpecOp 1 [11, 12] specC9src false,
   .removeOp 0 2,
   .clearOp,
   .insertOp 0 [1, 0, 0, 2, 0, 1] false]

/-- The end state of the C9 witness sequence. -/
def trajC9res : GenericTrajectory := forceOk (applyOps trajC9wit opsC9)

/-- C10 inputs: an initialized trajectory with two waypoints. -/
def trajC10 : GenericTrajectory :=
  forceOk (Insert (Init emptyTrajectory specNext) 0 [0, 0, 1, 1] false)

theorem writeSlots_length (vals : List dReal) :
    ∀ (data : List dReal) (start : ℕ), (writeSlots data start vals).length = data.length := by
  induction vals with
  | nil => intro data start; rfl
  | cons v vs ih => intro data start; simp [writeSlots, ih]

theorem writeSlots_getD (vals : List dReal) :
    ∀ (data : List dReal) (start j : ℕ), j < data.length →
      (writeSlots data start vals).getD j 0 =
        if start ≤ j ∧ j < start + vals.length then vals.getD (j - start) 0
        else data.getD j 0 := by
  induction vals with
  | nil =>
    intro data start j _
    rw [writeSlots, if_neg (by simp only [List.length_nil]; omega)]
  | cons v vs ih =>
    intro data start j hj
    rw [writeSlots]
    rw [ih (data.set start v) (start + 1) j (by simpa using hj)]
    by_cases h1 : j = start
    · subst h1
      rw [if_neg (by omega), if_pos (by simp only [List.length_cons]; omega)]
      simp [List.getD_eq_getElem?_getD, List.getElem?_set_self (by omega : j < data.length)]
    · by_cases h2 : start + 1 ≤ j ∧ j < start + 1 + vs.length
      · rw [if_pos h2, if_pos (by simp only [List.length_cons]; omega)]
        have hjs : j - start = (j - (start + 1)) + 1 := by omega
        rw [hjs]
        simp
      · rw [if_neg h2, if_neg (by simp only [List.length_cons]; omega)]
        simp [List.getD_eq_getElem?_getD, List.getElem?_set_ne (by omega : start ≠ j)]

theorem writeSlots_full (data vals : List dReal) (hd : data.length = vals.length) :
    writeSlots data 0 vals = vals := by
  apply List.ext_getElem
  · rw [writeSlots_length]; omega
  · intro i h1 h2
    have hgd := writeSlots_getD vals data 0 i (by rw [writeSlots_length] at h1; omega)
    rw [if_pos (by constructor <;> omega)] at hgd
    rw [← List.getD_eq_getElem (writeSlots data 0 vals) 0 h1,
      ← List.getD_eq_getElem vals 0 h2]
    simpa using hgd

theorem sliceData_length (traj : GenericTrajectory) (start len : ℕ) :
    (traj.sliceData start len).length = len := by
  simp [GenericTrajectory.sliceData]

theorem sliceData_getD (traj : GenericTrajectory) (start len k : ℕ) (hk : k < len) :
    (traj.sliceData start len).getD k 0 = traj.readData (start + k) := by
  rw [List.getD_eq_getElem _ _ (by simpa [GenericTrajectory.sliceData] using hk)]
  simp [GenericTrajectory.sliceData]

theorem sliceData_eq_drop_take (traj : GenericTrajectory) (start len : ℕ)
    (h : start + len ≤ traj.vtrajdata.length) :
    traj.sliceData start len = (traj.vtrajdata.drop start).take len := by
  apply List.ext_getElem
  · simp only [sliceData_length, List.length_take, List.length_drop]
    omega
  · intro i h1 h2
    have hi : i < len := by simpa [sliceData_length] using h1
    rw [← List.getD_eq_getElem _ 0 h1, sliceData_getD _ _ _ _ hi]
    rw [List.getElem_take, List.getElem_drop]
    rw [GenericTrajectory.readData, List.getD_eq_getElem _ 0 (by omega)]

theorem charListLt_asymm (a : List Char) :
    ∀ b : List Char, charListLt a b = true → charListLt b a = false := by
  induction a with
  | nil =>
    intro b h
    cases b with
    | nil => simp [charListLt] at h
    | cons c cs => rfl
  | cons x xs ih =>
    intro b h
    cases b with
    | nil => simp [charListLt] at h
    | cons y ys =>
      rw [charListLt] at h ⊢
      by_cases h1 : x < y
      · rw [if_neg (lt_asymm h1), if_pos h1]
      · rw [if_neg h1] at h
        by_cases h2 : y < x
        · rw [if_pos h2] at h
          simp at h
        · rw [if_neg h2] at h
          rw [if_neg h2, if_neg h1]
          exact ih ys h

theorem charListLt_negtrans (a : List Char) :
    ∀ b c : List Char, charListLt b a = false → charListLt c b = false →
      charListLt c a = false := by
  induction a with
  | nil =>
    intro b c h1 h2
    cases c with
    | nil => rfl
    | cons z zs => rfl
  | cons x xs ih =>
    intro b c h1 h2
    cases c with
    | nil =>
      cases b with
      | nil => simp [charListLt] at h1
      | cons y ys => simp [charListLt] at h2
    | cons z zs =>
      cases b with
      | nil => simp [charListLt] at h1
      | cons y ys =>
        rw [charListLt] at h1 h2 ⊢
        by_cases hyx : y < x
        · rw [if_pos hyx] at h1; simp at h1
        · rw [if_neg hyx] at h1
          by_cases hzy : z < y
          · rw [if_pos hzy] at h2; simp at h2
          · rw [if_neg hzy] at h2
            by_cases hzx : z < x
            · exact absurd (lt_of_lt_of_le hzx (le_of_not_lt hyx)) hzy
            · rw [if_neg hzx]
              by_cases hxz : x < z
              · rw [if_pos hxz]
              · rw [if_neg hxz]
                have hxz2 : x = z := le_antisymm (le_of_not_lt hzx) (le_of_not_lt hxz)
                subst hxz2
                by_cases hxy : x < y
                · exact absurd hxy hzy
                · rw [if_neg hxy] at h1
                  rw [if_neg hyx] at h2
                  exact ih ys zs h1 h2

theorem sortGroupsLt_asymm (a b : Group) (h : sortGroupsLt a b = true) :
    sortGroupsLt b a = false := by
  rw [sortGroupsLt] at h ⊢
  rcases hma : maporder (categoryOf a.name) with _ | ra <;>
    rcases hmb : maporder (categoryOf b.name) with _ | rb <;>
    rw [hma, hmb] at h
  all_goals
    first
      | exact charListLt_asymm _ _ h
      | exact Bool.noConfusion h
      | exact rfl
      | exact decide_eq_false (fun hc => absurd (of_decide_eq_true h) (Nat.lt_asymm hc))

theorem sortGroupsLt_negtrans (a b c : Group) (h1 : sortGroupsLt b a = false)
    (h2 : sortGroupsLt c b = false) : sortGroupsLt c a = false := by
  rw [sortGroupsLt] at h1 h2 ⊢
  rcases hma : maporder (categoryOf a.name) with _ | ra <;>
    rcases hmb : maporder (categoryOf b.name) with _ | rb <;>
    rcases hmc : maporder (categoryOf c.name) with _ | rc <;>
    rw [hmb, hma] at h1 <;> rw [hmc, hmb] at h2
  all_goals
    first
      | exact charListLt_negtrans _ _ _ h1 h2
      | exact Bool.noConfusion h1
      | exact Bool.noConfusion h2
      | exact rfl
      | exact decide_eq_false (fun hc => by
          have hba := of_decide_eq_false h1
          have hcb := of_decide_eq_false h2
          omega)

theorem mem_insertSorted (x : Group) (l : List Group) :
    ∀ z ∈ insertSorted sortGroupsLt x l, z = x ∨ z ∈ l := by
  induction l with
  | nil => intro z hz; simp [insertSorted] at hz; exact Or.inl hz
  | cons y ys ih =>
    intro z hz
    rw [insertSorted] at hz
    by_cases hc : sortGroupsLt y x
    · rw [if_pos hc] at hz
      rcases List.mem_cons.mp hz with hz | hz
      · exact Or.inr (by simp [hz])
      · rcases ih z hz with h | h
        · exact Or.inl h
        · exact Or.inr (by simp [h])
    · rw [if_neg hc] at hz
      rcases List.mem_cons.mp hz with hz | hz
      · exact Or.inl hz
      · exact Or.inr hz

theorem groupsSorted_insertSorted (x : Group) (l : List Group) (h : GroupsSorted l) :
    GroupsSorted (insertSorted sortGroupsLt x l) := by
  induction l with
  | nil => simp [insertSorted, GroupsSorted]
  | cons y ys ih =>
    rw [GroupsSorted] at h
    rcases (List.pairwise_cons.mp h) with ⟨hy, hys⟩
    rw [insertSorted]
    by_cases hc : sortGroupsLt y x
    · rw [if_pos hc, GroupsSorted, List.pairwise_cons]
      constructor
      · intro z hz
        rcases mem_insertSorted x ys z hz with hzx | hzm
        · rw [hzx]; exact sortGroupsLt_asymm y x (by simpa using hc)
        · exact hy z hzm
      · exact ih hys
    · rw [if_neg hc, GroupsSorted, List.pairwise_cons]
      refine ⟨?_, h⟩
      intro z hz
      rcases List.mem_cons.mp hz with hz | hz
      · rw [hz]; simpa using hc
      · exact sortGroupsLt_negtrans x y z (by simpa using hc) (hy z hz)

theorem groupsSorted_sortSpecGroups (l : List Group) : GroupsSorted (sortSpecGroups l) := by
  induction l with
  | nil => simp [sortSpecGroups, stableSortBy, GroupsSorted]
  | cons x xs ih =>
    rw [sortSpecGroups, stableSortBy]
    exact groupsSorted_insertSorted x _ ih

theorem sortSpecGroups_of_sorted (l : List Group) (h : GroupsSorted l) :
    sortSpecGroups l = l := by
  induction l with
  | nil => rfl
  | cons x xs ih =>
    rw [GroupsSorted] at h
    rcases List.pairwise_cons.mp h with ⟨hx, hxs⟩
    rw [sortSpecGroups, stableSortBy]
    rw [show stableSortBy sortGroupsLt xs = sortSpecGroups xs from rfl, ih hxs]
    cases xs with
    | nil => rfl
    | cons y ys =>
      rw [insertSorted, if_neg (by simpa using hx y (by simp))]

theorem Init_groupsSorted (traj : GenericTrajectory) (spec : ConfigurationSpecification)
    (h : traj.bInit = true → GroupsSorted traj.spec.vgroups) :
    GroupsSorted (Init traj spec).spec.vgroups := by
  rw [Init]
  by_cases hc : traj.bInit = true ∧ traj.spec = spec
  · rw [if_pos hc]
    exact h hc.1
  · rw [if_neg hc]
    exact groupsSorted_sortSpecGroups _

/-- Claim C6 (corrected).  After every init the spec's groups stand in the
canonical order of the `SortGroups` comparator — known categories by
precedence rank (`deltatime` first, down to `joint_torques`), unknown
categories lexicographically after all known ones.  Re-init with the same
specification is, however, NOT a no-op: it keeps the spec, group order, time
offset and resolved offsets, but clears the waypoint buffer and the derived
time arrays and raises the change flag. -/
theorem C6_canonical_order_and_reinit (traj : GenericTrajectory)
    (spec : ConfigurationSpecification)
    (h : traj.bInit = true → GroupsSorted traj.spec.vgroups) :
    GroupsSorted (Init traj spec).spec.vgroups ∧
      (traj.bInit = true →
        Init traj traj.spec =
          { traj with
            vtrajdata := []
            vaccumtime := []
            vdeltainvtime := []
            bChanged := true
            bSamplingVerified := false
            bInit := true }) := by
  refine ⟨Init_groupsSorted traj spec h, ?_⟩
  intro hinit
  rw [Init, if_pos ⟨hinit, rfl⟩]

/-- Witness for C6 at a concrete initialized trajectory and a concrete
unsorted group list. -/
theorem C6_witness :
    GroupsSorted (Init trajC6cex specC6).spec.vgroups ∧
      (trajC6cex.bInit = true →
        Init trajC6cex trajC6cex.spec =
          { trajC6cex with
            vtrajdata := []
            vaccumtime := []
            vdeltainvtime := []
            bChanged := true
            bSamplingVerified := false
            bInit := true }) :=
  C6_canonical_order_and_reinit trajC6cex specC6 (fun _ => by decide)

/-- Counterexample to C6 as stated: re-initializing an initialized two-point
trajectory with its own specification empties the waypoint buffer, so the
trajectory does change. -/
theorem C6_counterexample :
    trajC6cex.bInit = true ∧
      Init trajC6cex trajC6cex.spec ≠ trajC6cex ∧
      (Init trajC6cex trajC6cex.spec).vtrajdata = [] ∧
      trajC6cex.vtrajdata = [0, 0, 1, 1] := by
  decide

theorem accumFromList_ok_ge (dof toff n : ℕ) (data : List dReal) :
    ∀ (idxs : List ℕ) (prev : dReal) (accs invs : List dReal),
      accumFromList dof toff n data idxs prev = .ok (accs, invs) →
      ∀ x ∈ accs, prev ≤ x := by
  intro idxs
  induction idxs with
  | nil =>
    intro prev accs invs h x hx
    rw [accumFromList] at h
    simp only [Except.ok.injEq, Prod.mk.injEq] at h
    rw [← h.1] at hx
    simp at hx
  | cons i rest ih =>
    intro prev accs invs h x hx
    rw [accumFromList] at h
    by_cases hneg : data.getD (dof * i + toff) 0 < 0
    · rw [if_pos hneg] at h
      exact Except.noConfusion h
    · rw [if_neg hneg] at h
      rcases hrec : accumFromList dof toff n data rest (prev + data.getD (dof * i + toff) 0)
        with e | p
      · rw [hrec] at h
        exact Except.noConfusion h
      · rcases p with ⟨accs2, invs2⟩
        rw [hrec] at h
        simp only [Except.ok.injEq, Prod.mk.injEq] at h
        have hple : prev ≤ prev + data.getD (dof * i + toff) 0 :=
          le_add_of_nonneg_right (not_lt.mp hneg)
        rw [← h.1] at hx
        rcases List.mem_cons.mp hx with hx | hx
        · rw [hx]; exact hple
        · exact le_trans hple (ih _ accs2 invs2 hrec x hx)

theorem ComputeInternal_ok_fields (traj t : GenericTrajectory)
    (h : ComputeInternal traj = .ok t) :
    t.spec = traj.spec ∧ t.vtrajdata = traj.vtrajdata ∧ t.timeoffset = traj.timeoffset ∧
      t.vderivoffsets = traj.vderivoffsets ∧ t.vddoffsets = traj.vddoffsets ∧
      t.vdddoffsets = traj.vdddoffsets ∧ t.vintegraloffsets = traj.vintegraloffsets ∧
      t.viioffsets = traj.viioffsets ∧ t.bInit = traj.bInit := by
  simp only [ComputeInternal] at h
  split at h
  · rw [← Except.ok.inj h]; exact ⟨rfl, rfl, rfl, rfl, rfl, rfl, rfl, rfl, rfl⟩
  · split at h
    · rw [← Except.ok.inj h]; exact ⟨rfl, rfl, rfl, rfl, rfl, rfl, rfl, rfl, rfl⟩
    · split at h
      · rw [← Except.ok.inj h]; exact ⟨rfl, rfl, rfl, rfl, rfl, rfl, rfl, rfl, rfl⟩
      · split at h
        · exact Except.noConfusion h
        · rw [← Except.ok.inj h]; exact ⟨rfl, rfl, rfl, rfl, rfl, rfl, rfl, rfl, rfl⟩

theorem ComputeInternal_ok_shape (traj t : GenericTrajectory)
    (hch : traj.bChanged = true) (htoff : 0 ≤ traj.timeoffset)
    (hn : GetNumWaypoints traj ≠ 0) (h : ComputeInternal traj = .ok t) :
    ∃ accs invs,
      accumFromList traj.spec.GetDOF traj.timeoffset.toNat (GetNumWaypoints traj)
          traj.vtrajdata (List.range' 1 (GetNumWaypoints traj - 1))
          (traj.vtrajdata.getD traj.timeoffset.toNat 0) = .ok (accs, invs) ∧
      t = { traj with
        vaccumtime := traj.vtrajdata.getD traj.timeoffset.toNat 0 :: accs
        vdeltainvtime := (1 / traj.vtrajdata.getD traj.timeoffset.toNat 0) :: invs
        bChanged := false
        bSamplingVerified := false } := by
  simp only [ComputeInternal] at h
  rw [if_neg (by rw [hch]; exact Bool.noConfusion)] at h
  rw [if_neg (by omega)] at h
  rw [if_neg hn] at h
  rcases hrec : accumFromList traj.spec.GetDOF traj.timeoffset.toNat (GetNumWaypoints traj)
      traj.vtrajdata (List.range' 1 (GetNumWaypoints traj - 1))
      (traj.vtrajdata.getD traj.timeoffset.toNat 0) with e | p
  · rw [hrec] at h
    exact Except.noConfusion h
  · rcases p with ⟨accs, invs⟩
    rw [hrec] at h
    exact ⟨accs, invs, rfl, (Except.ok.inj h).symm⟩

/-- Claim C1 (corrected).  For an initialized non-empty trajectory with a
deltatime group, in-range time offset and non-negative stored deltatimes
(witnessed by a successful duration query): IF the duration is positive,
`Sample` at time 0 returns the first waypoint's channels with the deltatime
slot set to 0; and for every `t ≥ duration`, `Sample` returns the last
waypoint row verbatim, whose deltatime slot therefore holds the raw last-row
deltatime value.  The positivity proviso is forced: at duration 0 the code
takes the `t ≥ duration` branch and returns the LAST row
(`C1_counterexample`). -/
theorem C1_sample_boundaries (traj : GenericTrajectory) (N : ℕ) (D : dReal)
    (hinit : traj.bInit = true)
    (htoff0 : 0 ≤ traj.timeoffset)
    (hch : traj.bChanged = true)
    (hlen : traj.vtrajdata.length = N * traj.spec.GetDOF)
    (hN : 1 ≤ N)
    (hdof : 0 < traj.spec.GetDOF)
    (hd0 : 0 ≤ traj.vtrajdata.getD traj.timeoffset.toNat 0)
    (hD : GetDuration traj = .ok D) :
    (0 < D →
      Sample traj 0 =
        .ok ((traj.vtrajdata.take traj.spec.GetDOF).set traj.timeoffset.toNat 0)) ∧
    (∀ t : dReal, D ≤ t →
      Sample traj t =
        .ok (traj.vtrajdata.drop (traj.vtrajdata.length - traj.spec.GetDOF))) ∧
    (traj.vtrajdata.drop (traj.vtrajdata.length - traj.spec.GetDOF)).getD
        traj.timeoffset.toNat 0 =
      traj.vtrajdata.getD
        (traj.vtrajdata.length - traj.spec.GetDOF + traj.timeoffset.toNat) 0 := by
  have hnum : GetNumWaypoints traj = N := by
    rw [GetNumWaypoints, hlen]
    exact Nat.mul_div_cancel N hdof
  have hn0 : GetNumWaypoints traj ≠ 0 := by omega
  have hdoflen : traj.spec.GetDOF ≤ traj.vtrajdata.length := by
    rw [hlen]
    exact Nat.le_mul_of_pos_left _ (by omega)
  rw [GetDuration, if_neg (by rw [hinit]; exact Bool.noConfusion)] at hD
  rcases hCI : ComputeInternal traj with e | t2
  · rw [hCI] at hD
    exact absurd hD (by simp [Except.map])
  rw [hCI] at hD
  simp only [Except.map, Except.ok.injEq] at hD
  obtain ⟨accs, invs, haf, ht2⟩ := ComputeInternal_ok_shape traj t2 hch htoff0 hn0 hCI
  have hfields := ComputeInternal_ok_fields traj t2 hCI
  have hspec2 : t2.spec = traj.spec := hfields.1
  have hdata2 : t2.vtrajdata = traj.vtrajdata := hfields.2.1
  have htoff2 : t2.timeoffset = traj.timeoffset := hfields.2.2.1
  have hacc : t2.vaccumtime = traj.vtrajdata.getD traj.timeoffset.toNat 0 :: accs := by
    rw [ht2]
  have hge : ∀ x ∈ accs, traj.vtrajdata.getD traj.timeoffset.toNat 0 ≤ x :=
    accumFromList_ok_ge _ _ _ _ _ _ _ _ haf
  have hDmem : D ∈ traj.vtrajdata.getD traj.timeoffset.toNat 0 :: accs := by
    rw [← hD, hacc, List.getLastD_cons]
    exact List.getLastD_mem_cons accs _
  have ha0D : traj.vtrajdata.getD traj.timeoffset.toNat 0 ≤ D := by
    rcases List.mem_cons.mp hDmem with h | h
    · rw [h]
    · exact hge D h
  have hD0 : 0 ≤ D := le_trans hd0 ha0D
  have hsz : ¬ (t2.vtrajdata.length < t2.spec.GetDOF) := by
    rw [hdata2, hspec2]
    omega
  have hslice : t2.sliceData (t2.vtrajdata.length - t2.spec.GetDOF) t2.spec.GetDOF =
      traj.vtrajdata.drop (traj.vtrajdata.length - traj.spec.GetDOF) := by
    rw [sliceData_eq_drop_take _ _ _ (by rw [hdata2, hspec2]; omega)]
    rw [hdata2, hspec2]
    exact List.take_of_length_le (by rw [List.length_drop]; omega)
  refine ⟨?_, ?_, ?_⟩
  · intro hDpos
    rw [Sample, if_neg (by rw [hinit]; exact Bool.noConfusion), if_neg (by omega),
      if_neg (lt_irrefl 0), hCI]
    show SampleComputed t2 0 = _
    rw [SampleComputed, if_neg hsz,
      if_neg (by rw [hD]; exact not_le.mpr hDpos)]
    have hidx : lowerBoundIdx t2.vaccumtime 0 = 0 := by
      rw [hacc, lowerBoundIdx, List.findIdx_cons]
      have hdec : decide ((0 : dReal) ≤ traj.vtrajdata.getD traj.timeoffset.toNat 0) = true :=
        decide_eq_true hd0
      simp only [hdec, cond_true]
    rw [if_pos hidx]
    have hfull : writeSlots (List.replicate t2.spec.GetDOF 0) 0 (t2.sliceData 0 t2.spec.GetDOF) =
        t2.sliceData 0 t2.spec.GetDOF := by
      apply writeSlots_full
      rw [List.length_replicate, sliceData_length]
    rw [hfull]
    have hslice0 : t2.sliceData 0 t2.spec.GetDOF = traj.vtrajdata.take traj.spec.GetDOF := by
      rw [sliceData_eq_drop_take _ _ _ (by rw [hdata2, hspec2]; omega)]
      rw [hdata2, hspec2, List.drop_zero]
    rw [hslice0, htoff2]
  · intro t ht
    rw [Sample, if_neg (by rw [hinit]; exact Bool.noConfusion), if_neg (by omega),
      if_neg (not_lt.mpr (le_trans hD0 ht)), hCI]
    show SampleComputed t2 t = _
    rw [SampleComputed, if_neg hsz, if_pos (by rw [hD]; exact ht)]
    have hfull : writeSlots (List.replicate t2.spec.GetDOF 0) 0
        (t2.sliceData (t2.vtrajdata.length - t2.spec.GetDOF) t2.spec.GetDOF) =
        t2.sliceData (t2.vtrajdata.length - t2.spec.GetDOF) t2.spec.GetDOF := by
      apply writeSlots_full
      rw [List.length_replicate, sliceData_length]
    rw [hfull, hslice]
  · rw [List.getD_eq_getElem?_getD, List.getD_eq_getElem?_getD, List.getElem?_drop]

/-- Witness for C1 at a concrete two-waypoint trajectory of duration 1/2. -/
theorem C1_witness :
    Sample trajC1wit 0 =
        .ok ((trajC1wit.vtrajdata.take trajC1wit.spec.GetDOF).set
          trajC1wit.timeoffset.toNat 0) ∧
      Sample trajC1wit 7 =
        .ok (trajC1wit.vtrajdata.drop
          (trajC1wit.vtrajdata.length - trajC1wit.spec.GetDOF)) := by
  have h := C1_sample_boundaries trajC1wit 2 (1/2) (by decide) (by decide) (by decide)
    (by decide) (by decide) (by decide) (by decide) (by decide)
  exact ⟨h.1 (by norm_num), h.2.1 7 (by norm_num)⟩

/-- Counterexample to C1 as stated: at total duration 0 (every deltatime 0)
with differing first and last rows, `Sample` at time 0 returns the LAST row,
not the first row with a zeroed deltatime slot. -/
theorem C1_counterexample :
    Sample trajC1cex 0 ≠
        .ok ((trajC1cex.vtrajdata.take trajC1cex.spec.GetDOF).set
          trajC1cex.timeoffset.toNat 0) ∧
      Sample trajC1cex 0 = .ok [7, 0] := by
  decide

theorem accumFromList_append_error (dof toff n : ℕ) (data : List dReal) (i : ℕ)
    (l2 : List ℕ) :
    ∀ (l1 : List ℕ) (prev : dReal),
      (∀ j ∈ l1, 0 ≤ data.getD (dof * j + toff) 0) →
      data.getD (dof * i + toff) 0 < 0 →
      accumFromList dof toff n data (l1 ++ i :: l2) prev =
        .error (.invalidState (data.getD (dof * i + toff) 0) i n) := by
  intro l1
  induction l1 with
  | nil =>
    intro prev _ hneg
    rw [List.nil_append, accumFromList, if_pos hneg]
  | cons j rest ih =>
    intro prev hpos hneg
    rw [List.cons_append, accumFromList]
    rw [if_neg (not_lt.mpr (hpos j (by simp)))]
    rw [ih _ (fun k hk => hpos k (by simp [hk])) hneg]

/-- Claim C4 (corrected).  The lazy rebuild checks deltatimes only from
waypoint index 1 on: for every first offending index `i ≥ 1` whose stored
deltatime is negative, the first duration query after a mutation fails with
the `ORE_InvalidState` error naming that value, that index and the waypoint
count.  Waypoint 0's deltatime — the start time — is NOT checked
(`C4_counterexample`). -/
theorem C4_negative_deltatime (traj : GenericTrajectory) (N i : ℕ)
    (hinit : traj.bInit = true)
    (htoff0 : 0 ≤ traj.timeoffset)
    (hch : traj.bChanged = true)
    (hlen : traj.vtrajdata.length = N * traj.spec.GetDOF)
    (hdof : 0 < traj.spec.GetDOF)
    (h1 : 1 ≤ i) (hiN : i < N)
    (hneg : traj.vtrajdata.getD (traj.spec.GetDOF * i + traj.timeoffset.toNat) 0 < 0)
    (hprev : ∀ j, 1 ≤ j → j < i →
      0 ≤ traj.vtrajdata.getD (traj.spec.GetDOF * j + traj.timeoffset.toNat) 0) :
    GetDuration traj =
      .error (.invalidState
        (traj.vtrajdata.getD (traj.spec.GetDOF * i + traj.timeoffset.toNat) 0) i N) := by
  have hnum : GetNumWaypoints traj = N := by
    rw [GetNumWaypoints, hlen]
    exact Nat.mul_div_cancel N hdof
  have hsplit : List.range' 1 (N - 1) =
      List.range' 1 (i - 1) ++ i :: List.range' (i + 1) (N - 1 - i) := by
    have e1 : i :: List.range' (i + 1) (N - 1 - i) = List.range' i (N - 1 - i + 1) :=
      (List.range'_succ i (N - 1 - i) 1).symm
    rw [e1]
    have e2 := List.range'_append 1 (i - 1) (N - 1 - i + 1) 1
    have e3 : 1 + 1 * (i - 1) = i := by omega
    have e4 : N - 1 - i + 1 + (i - 1) = N - 1 := by omega
    rw [e3, e4] at e2
    exact e2.symm
  have hci : ComputeInternal traj =
      .error (.invalidState
        (traj.vtrajdata.getD (traj.spec.GetDOF * i + traj.timeoffset.toNat) 0) i N) := by
    simp only [ComputeInternal]
    rw [if_neg (by rw [hch]; exact Bool.noConfusion), if_neg (by omega),
      if_neg (by omega), hnum, hsplit]
    rw [accumFromList_append_error traj.spec.GetDOF traj.timeoffset.toNat N traj.vtrajdata i
      (List.range' (i + 1) (N - 1 - i)) (List.range' 1 (i - 1)) _
      (fun k hk => hprev k (List.mem_range'_1.mp hk).1
        (by have := (List.mem_range'_1.mp hk).2; omega)) hneg]
  rw [GetDuration, if_neg (by rw [hinit]; exact Bool.noConfusion), hci]
  rfl

/-- Witness for C4 at a concrete trajectory whose second waypoint stores
deltatime `-2`. -/
theorem C4_witness : GetDuration trajC4wit = .error (.invalidState (-2) 1 2) := by
  have h := C4_negative_deltatime trajC4wit 2 1 (by decide) (by decide) (by decide)
    (by decide) (by decide) (by decide) (by decide) (by decide)
    (fun j hj1 hj2 => absurd hj2 (by omega))
  calc GetDuration trajC4wit
      = .error (.invalidState
          (trajC4wit.vtrajdata.getD
            (trajC4wit.spec.GetDOF * 1 + trajC4wit.timeoffset.toNat) 0) 1 2) := h
    _ = .error (.invalidState (-2) 1 2) := by decide

/-- Counterexample to C4 as stated: a trajectory whose waypoint 0 stores a
negative deltatime rebuilds its time index without any error — the duration
query succeeds (and even returns the negative start time). -/
theorem C4_counterexample :
    trajC4cex.vtrajdata.getD trajC4cex.timeoffset.toNat 0 < 0 ∧
      GetDuration trajC4cex = .ok (-1) := by
  decide

/-- Claim C7 (corrected).  Inserting a non-empty data block at an index past
the end, and removing a range with distinct out-of-bounds endpoints, always
raise structured errors.  The carve-out the code forces: `Remove` with
`startindex = endindex` returns silently BEFORE any bounds check, even when
both indices are out of bounds (`C7_counterexample`); `Insert` with empty
data likewise returns before the index check (claim C10). -/
theorem C7_out_of_bounds_errors (traj : GenericTrajectory) (index s e : ℕ)
    (pdata : List dReal) (ow : Bool) (hinit : traj.bInit = true) :
    (0 < pdata.length → traj.vtrajdata.length < index * traj.spec.GetDOF →
      ∃ err, Insert traj index pdata ow = .error err) ∧
    (s ≠ e →
      (traj.vtrajdata.length < s * traj.spec.GetDOF ∨
        traj.vtrajdata.length < e * traj.spec.GetDOF) →
      ∃ err, Remove traj s e = .error err) := by
  constructor
  · intro hlen hidx
    rw [Insert, if_neg (by rw [hinit]; exact Bool.noConfusion), if_neg (by omega)]
    by_cases hdof : traj.spec.GetDOF = 0
    · rw [if_pos hdof]
      exact ⟨_, rfl⟩
    · rw [if_neg hdof]
      by_cases hmod : pdata.length % traj.spec.GetDOF ≠ 0
      · rw [if_pos hmod]
        exact ⟨_, rfl⟩
      · rw [if_neg hmod, if_pos (by omega)]
        exact ⟨_, rfl⟩
  · intro hse hbound
    rw [Remove, if_neg (by rw [hinit]; exact Bool.noConfusion), if_neg hse,
      if_pos (by omega)]
    exact ⟨_, rfl⟩

/-- Witness for C7: out-of-bounds insert and remove on a concrete two-point
trajectory. -/
theorem C7_witness :
    (∃ err, Insert trajC7 5 [1, 2] false = .error err) ∧
      ∃ err, Remove trajC7 1 5 = .error err := by
  have h := C7_out_of_bounds_errors trajC7 5 1 5 [1, 2] false (by decide)
  exact ⟨h.1 (by decide) (by decide), h.2 (by decide) (by decide)⟩

/-- Counterexample to C7 as stated: `Remove` with equal out-of-bounds
indices returns silently. -/
theorem C7_counterexample :
    Remove trajC7 5 5 = .ok trajC7 ∧
      trajC7.vtrajdata.length < 5 * trajC7.spec.GetDOF := by
  decide

/-- Claim C10 (confirmed).  On an initialized trajectory, inserting an empty
data block — through either overload, at any index, with or without
overwrite — returns immediately with the state untouched: the buffer, the
change flag and everything else are exactly as before, and no precondition
(index bound included) is checked. -/
theorem C10_insert_empty_noop (traj : GenericTrajectory) (index : ℕ) (ow : Bool)
    (spec : ConfigurationSpecification) (hinit : traj.bInit = true) :
    Insert traj index [] ow = .ok traj ∧
      InsertWithSpec traj index [] spec ow = .ok traj := by
  constructor
  · rw [Insert, if_neg (by rw [hinit]; exact Bool.noConfusion),
      if_pos (show ([] : List dReal).length = 0 from rfl)]
  · rw [InsertWithSpec, if_neg (by rw [hinit]; exact Bool.noConfusion),
      if_pos (show ([] : List dReal).length = 0 from rfl)]

/-- Witness for C10 at index 100 of a two-waypoint trajectory. -/
theorem C10_witness :
    Insert trajC10 100 [] true = .ok trajC10 ∧
      InsertWithSpec trajC10 100 [] specC3 true = .ok trajC10 :=
  C10_insert_empty_noop trajC10 100 true specC3 (by decide)

/-- Claim C5 (corrected).  Inside a segment `[i, i+1]` (a next waypoint
exists), the `next` kernel bumps the index first, so its `0 < ipoint` guard
compares `i + 1`, which is never zero: the output is the row at `i + 1`
unless `δ ≤ ε`, in which case it is the row at `i` — for EVERY `i`,
including `i = 0`, where the claim's `i > 0` proviso wrongly predicts the
value at `i + 1` (`C5_counterexample`). -/
theorem C5_interpolate_next (traj : GenericTrajectory) (g : Group) (ipoint : ℕ)
    (delta : dReal) (data : List dReal)
    (hseg : (ipoint + 1) * traj.spec.GetDOF < traj.vtrajdata.length) :
    (delta ≤ g_fEpsilon →
      interpNext traj g ipoint delta data =
        writeSlots data g.offset
          (traj.sliceData (ipoint * traj.spec.GetDOF + g.offset) g.dof)) ∧
    (g_fEpsilon < delta →
      interpNext traj g ipoint delta data =
        writeSlots data g.offset
          (traj.sliceData ((ipoint + 1) * traj.spec.GetDOF + g.offset) g.dof)) := by
  have harith : (ipoint + 1) * traj.spec.GetDOF + g.offset - traj.spec.GetDOF =
      ipoint * traj.spec.GetDOF + g.offset := by
    rw [add_mul, one_mul]
    omega
  constructor
  · intro hd
    simp only [interpNext]
    rw [if_pos hseg, if_pos ⟨hd, by omega⟩, harith]
  · intro hd
    simp only [interpNext]
    rw [if_pos hseg, if_neg (fun hcon => absurd hcon.1 (not_le.mpr hd))]

/-- Witness for C5: the `δ ≤ ε` case at segment `[0, 1]` of a concrete
trajectory. -/
theorem C5_witness :
    interpNext trajC5 gValNext 0 0 [0, 0] =
      writeSlots [0, 0] gValNext.offset
        (trajC5.sliceData (0 * trajC5.spec.GetDOF + gValNext.offset) gValNext.dof) :=
  (C5_interpolate_next trajC5 gValNext 0 0 [0, 0] (by decide)).1 (by decide)

/-- Counterexample to C5 as stated: sampling the S3 trajectory at
`t = ε/2` lands in segment `[0, 1]` with `δ = ε/2 ≤ ε` and `i = 0`; the
claim's `i > 0` proviso predicts the waypoint-1 value `1`, but the output's
value slot holds the waypoint-0 value `0`. -/
theorem C5_counterexample :
    Sample trajC5 (g_fEpsilon / 2) = .ok [0, g_fEpsilon / 2] ∧
      trajC5.vtrajdata.getD (1 * trajC5.spec.GetDOF + gValNext.offset) 0 = 1 := by
  decide

/-- Claim C3 (confirmed).  For a scalar `linear` group: with a resolved
derivative offset the kernel outputs `x_i + δ · v`, where `v` is read from
waypoint `i + 1` — the NEXT waypoint — at the resolved derivative offset;
without one it outputs the convex combination `(1 − δ/d)·x_i + (δ/d)·x_{i+1}`
with `d` the segment duration (the kernel multiplies by the cached
reciprocal `invdelta[i+1] = 1/d`). -/
theorem C3_interpolate_linear (traj : GenericTrajectory) (g : Group) (ipoint : ℕ)
    (delta dseg : dReal) (data : List dReal)
    (hg : g.offset + g.dof ≤ data.length)
    (hinv : traj.vdeltainvtime.getD (ipoint + 1) 0 = 1 / dseg) :
    (0 ≤ traj.vderivoffsets.getD g.offset (-1) →
      ∀ i < g.dof,
        (interpLinear traj g ipoint delta data).getD (g.offset + i) 0 =
          traj.readData (ipoint * traj.spec.GetDOF + g.offset + i) +
            delta * traj.readData ((ipoint + 1) * traj.spec.GetDOF +
              (traj.vderivoffsets.getD g.offset (-1)).toNat + i)) ∧
    (traj.vderivoffsets.getD g.offset (-1) < 0 →
      ∀ i < g.dof,
        (interpLinear traj g ipoint delta data).getD (g.offset + i) 0 =
          (1 - delta / dseg) * traj.readData (ipoint * traj.spec.GetDOF + g.offset + i) +
            (delta / dseg) *
              traj.readData ((ipoint + 1) * traj.spec.GetDOF + g.offset + i)) := by
  have hmap : ∀ (f : ℕ → dReal) (i : ℕ), i < g.dof →
      ((List.range g.dof).map f).getD i 0 = f i := by
    intro f i hi
    rw [List.getD_eq_getElem _ _ (by simpa using hi)]
    simp
  have hsub : ∀ i : ℕ, g.offset + i - g.offset = i := fun i => by omega
  constructor
  · intro hdo i hi
    simp only [interpLinear]
    rw [if_neg (not_lt.mpr hdo)]
    rw [writeSlots_getD _ _ _ _ (by omega)]
    rw [if_pos ⟨by omega, by simp only [List.length_map, List.length_range]; omega⟩]
    rw [hsub i, hmap _ i hi]
    rw [show (ipoint + 1) * traj.spec.GetDOF +
        (traj.vderivoffsets.getD g.offset (-1)).toNat + i =
        traj.spec.GetDOF + ipoint * traj.spec.GetDOF +
          (traj.vderivoffsets.getD g.offset (-1)).toNat + i from by ring]
  · intro hdo i hi
    simp only [interpLinear]
    rw [if_pos hdo]
    rw [writeSlots_getD _ _ _ _ (by omega)]
    rw [if_pos ⟨by omega, by simp only [List.length_map, List.length_range]; omega⟩]
    rw [hsub i, hmap _ i hi]
    rw [hinv]
    rw [show (ipoint + 1) * traj.spec.GetDOF + g.offset + i =
        traj.spec.GetDOF + ipoint * traj.spec.GetDOF + g.offset + i from by ring]
    ring

/-- Witness for C3: the resolved-derivative branch of a concrete linear
group whose velocity group is labeled `next`. -/
theorem C3_witness :
    (interpLinear trajC3wit gValLin 0 (1/4) [0, 0, 0]).getD (gValLin.offset + 0) 0 =
      trajC3wit.readData (0 * trajC3wit.spec.GetDOF + gValLin.offset + 0) +
        (1/4) * trajC3wit.readData ((0 + 1) * trajC3wit.spec.GetDOF +
          (trajC3wit.vderivoffsets.getD gValLin.offset (-1)).toNat + 0) :=
  (C3_interpolate_linear trajC3wit gValLin 0 (1/4) 0 [0, 0, 0] (by decide) (by decide)).1
    (by decide) 0 (by decide)

theorem foldlM_error_of_mem {α : Type} (step : List dReal → α → Except TrajError (List dReal)) :
    ∀ (l : List α) (g : α), g ∈ l →
      (∀ d : List dReal, ∃ e, step d g = .error e) →
      ∀ data : List dReal, ∃ e, l.foldlM step data = .error e := by
  intro l
  induction l with
  | nil => intro g hg; exact absurd hg (List.not_mem_nil g)
  | cons a as ih =>
    intro g hg hstep data
    rw [List.foldlM_cons]
    rcases List.mem_cons.mp hg with hga | hga
    · obtain ⟨e, he⟩ := hstep data
      rw [← hga, he]
      exact ⟨e, rfl⟩
    · rcases hsa : step data a with e | d2
      · exact ⟨e, rfl⟩
      · exact ih g hga hstep d2

theorem interpCubic_nodata (t : GenericTrajectory) (g : Group) (ipoint : ℕ)
    (deltatime : dReal) (data : List dReal)
    (hdelta : g_fEpsilon < deltatime)
    (hderiv : t.vderivoffsets.getD g.offset (-1) < 0)
    (hmiss : ¬ (0 ≤ t.vintegraloffsets.getD g.offset (-1) ∧
      0 ≤ t.viioffsets.getD g.offset (-1))) :
    interpCubic t g ipoint deltatime data =
      .error (.invalidArguments "cubic interpolation does not have all data") := by
  simp only [interpCubic]
  rw [if_pos hdelta, if_neg (not_le.mpr hderiv), if_neg hmiss]

/-- Claim C8 (corrected).  A trajectory holding a `cubic` group with no
resolved derivative offset and no resolved integral/second-integral pair is
not fully samplable: any `Sample` whose clamped intra-segment offset exceeds
`ε` throws `cubic interpolation does not have all data`.  But the claim's
"the first attempt to sample it fails" is too strong: sampling at time 0, at
or past the duration, or anywhere the clamped offset stays within `ε`
succeeds without ever invoking the cubic kernel (`C8_counterexample`: the
very same unsamplable trajectory answers `Sample` at time 0 with the first
row). -/
theorem C8_cubic_sample_error (traj t2 : GenericTrajectory) (g : Group) (time : dReal)
    (hinit : traj.bInit = true)
    (htoff0 : 0 ≤ traj.timeoffset)
    (htime : 0 ≤ time)
    (hCI : ComputeInternal traj = .ok t2)
    (hsz : ¬ (t2.vtrajdata.length < t2.spec.GetDOF))
    (hdur : ¬ (t2.vaccumtime.getLastD 0 ≤ time))
    (hidx : ¬ (lowerBoundIdx t2.vaccumtime time = 0))
    (hdelta : g_fEpsilon < clampDelta
      (time - t2.vaccumtime.getD (lowerBoundIdx t2.vaccumtime time - 1) 0)
      (t2.readData (t2.spec.GetDOF * lowerBoundIdx t2.vaccumtime time + t2.timeoffset.toNat)))
    (hg : g ∈ traj.spec.vgroups)
    (hcubic : g.interpolation = "cubic")
    (hderiv : traj.vderivoffsets.getD g.offset (-1) < 0)
    (hmiss : ¬ (0 ≤ traj.vintegraloffsets.getD g.offset (-1) ∧
      0 ≤ traj.viioffsets.getD g.offset (-1))) :
    ∃ err, Sample traj time = .error err := by
  have hfields := ComputeInternal_ok_fields traj t2 hCI
  have hspec2 : t2.spec = traj.spec := hfields.1
  have hdoff2 : t2.vderivoffsets = traj.vderivoffsets := hfields.2.2.2.1
  have hioff2 : t2.vintegraloffsets = traj.vintegraloffsets := hfields.2.2.2.2.2.2.1
  have hiioff2 : t2.viioffsets = traj.viioffsets := hfields.2.2.2.2.2.2.2.1
  have hrun : ∀ data : List dReal, ∃ e,
      runInterpolators t2 (lowerBoundIdx t2.vaccumtime time - 1)
        (clampDelta (time - t2.vaccumtime.getD (lowerBoundIdx t2.vaccumtime time - 1) 0)
          (t2.readData
            (t2.spec.GetDOF * lowerBoundIdx t2.vaccumtime time + t2.timeoffset.toNat)))
        data = .error e := by
    intro data
    simp only [runInterpolators]
    refine foldlM_error_of_mem _ t2.spec.vgroups g (by rw [hspec2]; exact hg) ?_ data
    intro d
    refine ⟨.invalidArguments "cubic interpolation does not have all data", ?_⟩
    simp only [groupInterpolator, hcubic]
    rw [if_pos trivial]
    exact interpCubic_nodata t2 g _ _ d hdelta
      (by rw [hdoff2]; exact hderiv) (by rw [hioff2, hiioff2]; exact hmiss)
  obtain ⟨e, he⟩ := hrun (List.replicate t2.spec.GetDOF 0)
  refine ⟨e, ?_⟩
  rw [Sample, if_neg (by rw [hinit]; exact Bool.noConfusion), if_neg (by omega),
    if_neg (not_lt.mpr htime), hCI]
  show SampleComputed t2 time = _
  rw [SampleComputed, if_neg hsz, if_neg hdur, if_neg hidx, he]

/-- Witness for C8: the concrete unsamplable cubic trajectory throws when
sampled strictly inside its segment. -/
theorem C8_witness : ∃ err, Sample trajC8in (1/2) = .error err :=
  C8_cubic_sample_error trajC8in (computedOf trajC8in) gValCubic (1/2)
    (by decide) (by decide) (by decide) (by decide) (by decide) (by decide)
    (by decide) (by decide) (by decide) (by decide) (by decide) (by decide)

/-- Counterexample to C8 as stated: the same unsamplable cubic trajectory —
missing derivative and integral data alike — answers its first sample, at
time 0, successfully with the first waypoint row. -/
theorem C8_counterexample :
    Sample trajC8in 0 = .ok [0, 0] ∧
      gValCubic ∈ trajC8in.spec.vgroups ∧
      gValCubic.interpolation = "cubic" ∧
      trajC8in.vderivoffsets.getD gValCubic.offset (-1) < 0 ∧
      ¬ (0 ≤ trajC8in.vintegraloffsets.getD gValCubic.offset (-1) ∧
        0 ≤ trajC8in.viioffsets.getD gValCubic.offset (-1)) := by
  decide

theorem foldl_length_fixed {α : Type} (f : List dReal → α → List dReal)
    (hf : ∀ t a, (f t a).length = t.length) :
    ∀ (l : List α) (t : List dReal), (l.foldl f t).length = t.length := by
  intro l
  induction l with
  | nil => intro t; rfl
  | cons a as ih => intro t; rw [List.foldl_cons, ih, hf]

theorem ConvertDataModel_length (traj : GenericTrajectory) (target : List dReal) (base : ℕ)
    (srcspec : ConfigurationSpecification) (pdata : List dReal) (srcbase numelements : ℕ)
    (fill : Bool) :
    (ConvertDataModel traj target base srcspec pdata srcbase numelements fill).length =
      target.length := by
  simp only [ConvertDataModel]
  apply foldl_length_fixed
  intro t g
  rcases hf : FindCompatibleGroup srcspec g with _ | sg
  · by_cases hfill : fill = true
    · rw [if_pos hfill]
      exact foldl_length_fixed _ (fun t2 e => writeSlots_length _ _ _) _ _
    · rw [if_neg hfill]
  · exact foldl_length_fixed _ (fun t2 e => writeSlots_length _ _ _) _ _

theorem dvd_min_of_dvd (k a b : ℕ) (ha : k ∣ a) (hb : k ∣ b) : k ∣ min a b := by
  rcases le_total a b with h | h
  · rw [min_eq_left h]; exact ha
  · rw [min_eq_right h]; exact hb

theorem Insert_ok_dvd (traj t2 : GenericTrajectory) (index : ℕ) (pdata : List dReal)
    (ow : Bool)
    (hdvd : traj.spec.GetDOF ∣ traj.vtrajdata.length)
    (h : Insert traj index pdata ow = .ok t2) :
    t2.spec = traj.spec ∧ traj.spec.GetDOF ∣ t2.vtrajdata.length := by
  simp only [Insert] at h
  by_cases h1 : traj.bInit = false
  · rw [if_pos h1] at h; exact Except.noConfusion h
  rw [if_neg h1] at h
  by_cases h2 : pdata.length = 0
  · rw [if_pos h2] at h
    rw [← Except.ok.inj h]
    exact ⟨rfl, hdvd⟩
  rw [if_neg h2] at h
  by_cases h3 : traj.spec.GetDOF = 0
  · rw [if_pos h3] at h; exact Except.noConfusion h
  rw [if_neg h3] at h
  by_cases h4 : pdata.length % traj.spec.GetDOF ≠ 0
  · rw [if_pos h4] at h; exact Except.noConfusion h
  rw [if_neg h4] at h
  have hpd : traj.spec.GetDOF ∣ pdata.length := Nat.dvd_of_mod_eq_zero (not_not.mp h4)
  by_cases h5 : ¬ (index * traj.spec.GetDOF ≤ traj.vtrajdata.length)
  · rw [if_pos h5] at h; exact Except.noConfusion h
  rw [if_neg h5] at h
  by_cases h6 : ow = true ∧ index * traj.spec.GetDOF < traj.vtrajdata.length
  · rw [if_pos h6] at h
    rw [← Except.ok.inj h]
    refine ⟨rfl, ?_⟩
    show traj.spec.GetDOF ∣ (writeSlots traj.vtrajdata (index * traj.spec.GetDOF)
      (pdata.take (min pdata.length (traj.vtrajdata.length - index * traj.spec.GetDOF))) ++
      pdata.drop (min pdata.length
        (traj.vtrajdata.length - index * traj.spec.GetDOF))).length
    rw [List.length_append, writeSlots_length, List.length_drop]
    have hmin : traj.spec.GetDOF ∣
        min pdata.length (traj.vtrajdata.length - index * traj.spec.GetDOF) :=
      dvd_min_of_dvd _ _ _ hpd (Nat.dvd_sub' hdvd (dvd_mul_left _ _))
    exact Nat.dvd_add hdvd (Nat.dvd_sub' hpd hmin)
  · rw [if_neg h6] at h
    rw [← Except.ok.inj h]
    refine ⟨rfl, ?_⟩
    show traj.spec.GetDOF ∣ (traj.vtrajdata.take (index * traj.spec.GetDOF) ++ pdata ++
      traj.vtrajdata.drop (index * traj.spec.GetDOF)).length
    rw [List.length_append, List.length_append, List.length_take, List.length_drop]
    exact Nat.dvd_add
      (Nat.dvd_add (dvd_min_of_dvd _ _ _ (dvd_mul_left _ _) hdvd) hpd)
      (Nat.dvd_sub' hdvd (dvd_mul_left _ _))

theorem InsertWithSpec_ok_dvd (traj t2 : GenericTrajectory) (index : ℕ) (pdata : List dReal)
    (spec : ConfigurationSpecification) (ow : Bool)
    (hdvd : traj.spec.GetDOF ∣ traj.vtrajdata.length)
    (h : InsertWithSpec traj index pdata spec ow = .ok t2) :
    t2.spec = traj.spec ∧ traj.spec.GetDOF ∣ t2.vtrajdata.length := by
  simp only [InsertWithSpec] at h
  by_cases h1 : traj.bInit = false
  · rw [if_pos h1] at h; exact Except.noConfusion h
  rw [if_neg h1] at h
  by_cases h2 : pdata.length = 0
  · rw [if_pos h2] at h
    rw [← Except.ok.inj h]
    exact ⟨rfl, hdvd⟩
  rw [if_neg h2] at h
  by_cases h3 : spec.GetDOF = 0
  · rw [if_pos h3] at h; exact Except.noConfusion h
  rw [if_neg h3] at h
  by_cases h4 : pdata.length % spec.GetDOF ≠ 0
  · rw [if_pos h4] at h; exact Except.noConfusion h
  rw [if_neg h4] at h
  by_cases h5 : ¬ (index * traj.spec.GetDOF ≤ traj.vtrajdata.length)
  · rw [if_pos h5] at h; exact Except.noConfusion h
  rw [if_neg h5] at h
  by_cases h6 : traj.spec = spec
  · rw [if_pos h6] at h
    exact Insert_ok_dvd traj t2 index pdata ow hdvd h
  rw [if_neg h6] at h
  by_cases h7 : ow = true ∧ index * traj.spec.GetDOF < traj.vtrajdata.length
  · rw [if_pos h7] at h
    by_cases h8 : min (pdata.length / spec.GetDOF)
        (traj.vtrajdata.length / traj.spec.GetDOF - index) * spec.GetDOF < pdata.length
    · rw [if_pos h8] at h
      rw [← Except.ok.inj h]
      refine ⟨rfl, ?_⟩
      show traj.spec.GetDOF ∣ ((ConvertDataModel traj traj.vtrajdata
          (index * traj.spec.GetDOF) spec pdata 0
          (min (pdata.length / spec.GetDOF)
            (traj.vtrajdata.length / traj.spec.GetDOF - index)) false).take
            ((index + min (pdata.length / spec.GetDOF)
              (traj.vtrajdata.length / traj.spec.GetDOF - index)) * traj.spec.GetDOF) ++
          ConvertDataModel traj
            (List.replicate ((pdata.length -
              min (pdata.length / spec.GetDOF)
                (traj.vtrajdata.length / traj.spec.GetDOF - index) * spec.GetDOF) /
                spec.GetDOF * traj.spec.GetDOF) 0) 0 spec pdata
            (min (pdata.length / spec.GetDOF)
              (traj.vtrajdata.length / traj.spec.GetDOF - index) * spec.GetDOF)
            ((pdata.length - min (pdata.length / spec.GetDOF)
              (traj.vtrajdata.length / traj.spec.GetDOF - index) * spec.GetDOF) /
              spec.GetDOF) true ++
          (ConvertDataModel traj traj.vtrajdata (index * traj.spec.GetDOF) spec pdata 0
            (min (pdata.length / spec.GetDOF)
              (traj.vtrajdata.length / traj.spec.GetDOF - index)) false).drop
            ((index + min (pdata.length / spec.GetDOF)
              (traj.vtrajdata.length / traj.spec.GetDOF - index)) * traj.spec.GetDOF)).length
      rw [List.length_append, List.length_append, List.length_take, List.length_drop,
        ConvertDataModel_length, ConvertDataModel_length, List.length_replicate]
      exact Nat.dvd_add
        (Nat.dvd_add (dvd_min_of_dvd _ _ _ (dvd_mul_left _ _) hdvd) (dvd_mul_left _ _))
        (Nat.dvd_sub' hdvd (dvd_mul_left _ _))
    · rw [if_neg h8] at h
      rw [← Except.ok.inj h]
      refine ⟨rfl, ?_⟩
      show traj.spec.GetDOF ∣ (ConvertDataModel traj traj.vtrajdata
          (index * traj.spec.GetDOF) spec pdata 0
          (min (pdata.length / spec.GetDOF)
            (traj.vtrajdata.length / traj.spec.GetDOF - index)) false).length
      rw [ConvertDataModel_length]
      exact hdvd
  · rw [if_neg h7] at h
    rw [← Except.ok.inj h]
    refine ⟨rfl, ?_⟩
    show traj.spec.GetDOF ∣ (traj.vtrajdata.take (index * traj.spec.GetDOF) ++
        ConvertDataModel traj
          (List.replicate (pdata.length / spec.GetDOF * traj.spec.GetDOF) 0) 0 spec pdata 0
          (pdata.length / spec.GetDOF) true ++
        traj.vtrajdata.drop (index * traj.spec.GetDOF)).length
    rw [List.length_append, List.length_append, List.length_take, List.length_drop,
      ConvertDataModel_length, List.length_replicate]
    exact Nat.dvd_add
      (Nat.dvd_add (dvd_min_of_dvd _ _ _ (dvd_mul_left _ _) hdvd) (dvd_mul_left _ _))
      (Nat.dvd_sub' hdvd (dvd_mul_left _ _))

theorem Remove_ok_dvd (traj t2 : GenericTrajectory) (s e : ℕ)
    (hdvd : traj.spec.GetDOF ∣ traj.vtrajdata.length)
    (h : Remove traj s e = .ok t2) :
    t2.spec = traj.spec ∧ traj.spec.GetDOF ∣ t2.vtrajdata.length := by
  simp only [Remove] at h
  by_cases h1 : traj.bInit = false
  · rw [if_pos h1] at h; exact Except.noConfusion h
  rw [if_neg h1] at h
  by_cases h2 : s = e
  · rw [if_pos h2] at h
    rw [← Except.ok.inj h]
    exact ⟨rfl, hdvd⟩
  rw [if_neg h2] at h
  by_cases h3 : ¬ (s * traj.spec.GetDOF ≤ traj.vtrajdata.length ∧
      e * traj.spec.GetDOF ≤ traj.vtrajdata.length)
  · rw [if_pos h3] at h; exact Except.noConfusion h
  rw [if_neg h3] at h
  by_cases h4 : ¬ (s < e)
  · rw [if_pos h4] at h; exact Except.noConfusion h
  rw [if_neg h4] at h
  rw [← Except.ok.inj h]
  refine ⟨rfl, ?_⟩
  show traj.spec.GetDOF ∣ (traj.vtrajdata.take (s * traj.spec.GetDOF) ++
    traj.vtrajdata.drop (e * traj.spec.GetDOF)).length
  rw [List.length_append, List.length_take, List.length_drop]
  exact Nat.dvd_add (dvd_min_of_dvd _ _ _ (dvd_mul_left _ _) hdvd)
    (Nat.dvd_sub' hdvd (dvd_mul_left _ _))

theorem ClearWaypoints_dvd (traj : GenericTrajectory)
    (hdvd : traj.spec.GetDOF ∣ traj.vtrajdata.length) :
    (ClearWaypoints traj).spec = traj.spec ∧
      traj.spec.GetDOF ∣ (ClearWaypoints traj).vtrajdata.length := by
  rw [ClearWaypoints]
  by_cases h1 : traj.bInit = true
  · rw [if_pos h1]
    by_cases h2 : 0 < traj.vtrajdata.length
    · rw [if_pos h2]
      exact ⟨rfl, dvd_zero _⟩
    · rw [if_neg h2]
      exact ⟨rfl, hdvd⟩
  · rw [if_neg h1]
    exact ⟨rfl, hdvd⟩

theorem applyOp_dvd (traj t2 : GenericTrajectory) (op : TrajOp)
    (hdvd : traj.spec.GetDOF ∣ traj.vtrajdata.length)
    (h : applyOp traj op = .ok t2) :
    t2.spec = traj.spec ∧ traj.spec.GetDOF ∣ t2.vtrajdata.length := by
  cases op with
  | insertOp index data ow => exact Insert_ok_dvd traj t2 index data ow hdvd h
  | insertWithSpecOp index data spec ow =>
    exact InsertWithSpec_ok_dvd traj t2 index data spec ow hdvd h
  | removeOp s e => exact Remove_ok_dvd traj t2 s e hdvd h
  | clearOp =>
    rw [← Except.ok.inj h]
    exact ClearWaypoints_dvd traj hdvd

/-- Claim C9 (confirmed).  Under any sequence of successful `Insert` (same
spec or converting), `Remove` and `ClearWaypoints` operations on a
trajectory whose waypoint buffer length is an exact multiple of the spec's
total DOF, the spec is unchanged and the buffer length remains an exact
multiple of that total DOF — applied to every prefix of the sequence, this
settles the invariant after each operation. -/
theorem C9_waypoint_buffer_multiple (ops : List TrajOp) :
    ∀ (traj t2 : GenericTrajectory), traj.spec.GetDOF ∣ traj.vtrajdata.length →
      applyOps traj ops = .ok t2 →
      t2.spec = traj.spec ∧ traj.spec.GetDOF ∣ t2.vtrajdata.length := by
  induction ops with
  | nil =>
    intro traj t2 hdvd h
    rw [← Except.ok.inj h]
    exact ⟨rfl, hdvd⟩
  | cons op ops ih =>
    intro traj t2 hdvd h
    simp only [applyOps] at h
    rcases hop : applyOp traj op with e | t1
    · rw [hop] at h
      exact Except.noConfusion h
    · rw [hop] at h
      obtain ⟨hspec1, hdvd1⟩ := applyOp_dvd traj t1 op hdvd hop
      obtain ⟨hspec2, hdvd2⟩ := ih t1 t2 (by rw [hspec1]; exact hdvd1) h
      refine ⟨by rw [hspec2, hspec1], ?_⟩
      rw [← hspec1]
      exact hdvd2

/-- Witness for C9: the concrete five-operation sequence (plain insert,
overwriting insert, converting insert, remove, clear, insert) keeps the
buffer a multiple of the 3-channel spec, ending at length 6. -/
theorem C9_witness :
    applyOps trajC9wit opsC9 = .ok trajC9res ∧
      trajC9res.vtrajdata.length = 6 ∧
      trajC9wit.spec.GetDOF ∣ trajC9res.vtrajdata.length :=
  ⟨by decide, by decide,
    (C9_waypoint_buffer_multiple opsC9 trajC9wit trajC9res (by decide) (by decide)).2⟩

theorem Init_spec_not_init (traj : GenericTrajectory) (spec : ConfigurationSpecification)
    (h : traj.bInit = false) :
    (Init traj spec).spec = ⟨sortSpecGroups spec.vgroups⟩ := by
  simp only [Init]
  rw [if_neg (by rw [h]; rintro ⟨h1, _⟩; exact Bool.noConfusion h1)]

theorem readBinaryUInt16_write (v : ℕ) (rest : List BinToken) :
    readBinaryUInt16 (writeBinaryUInt16 v ++ rest) = some (v % 65536, rest) := rfl

theorem readBinaryInt_write (v : ℤ) (rest : List BinToken) :
    readBinaryInt (writeBinaryInt v ++ rest) = some (v, rest) := rfl

theorem readBinaryString_write (s : String) (h : s.length < 65536) (rest : List BinToken) :
    readBinaryString (writeBinaryString s ++ rest) = some (s, rest) := by
  by_cases h0 : s.length = 0
  · have hs : s = "" := by
      cases s with
      | mk data =>
        cases data with
        | nil => rfl
        | cons c cs => simp [String.length] at h0
    subst hs
    rw [show writeBinaryString "" = [BinToken.u16 0] from by decide,
      List.singleton_append, readBinaryString]
  · rw [writeBinaryString, if_neg h0, Nat.mod_eq_of_lt h]
    obtain ⟨n, hn⟩ : ∃ n, s.length = n + 1 := ⟨s.length - 1, by omega⟩
    rw [hn]
    show (if s.length = n + 1 then some (s, rest) else none) = some (s, rest)
    rw [if_pos hn]

theorem readReals_write : ∀ (v : List dReal) (rest : List BinToken),
    readReals v.length (v.map BinToken.real ++ rest) = some (v, rest) := by
  intro v
  induction v with
  | nil => intro rest; rfl
  | cons x xs ih =>
    intro rest
    rw [List.length_cons, List.map_cons, List.cons_append]
    show (match readReals xs.length (xs.map BinToken.real ++ rest) with
      | some (w, r) => some (x :: w, r)
      | none => none) = some (x :: xs, rest)
    rw [ih]

theorem readBinaryVector_write (v : List dReal) (h : v.length < 4294967296)
    (rest : List BinToken) :
    readBinaryVector (writeBinaryVector v ++ rest) = some (v, rest) := by
  rw [writeBinaryVector, Nat.mod_eq_of_lt h, List.take_length, List.cons_append]
  show readReals v.length (v.map BinToken.real ++ rest) = some (v, rest)
  exact readReals_write v rest

theorem readGroupTokens_write (g : Group) (hn : g.name.length < 65536)
    (hi : g.interpolation.length < 65536) (rest : List BinToken) :
    readGroupTokens (writeGroupTokens g ++ rest) = some (g, rest) := by
  simp only [readGroupTokens, writeGroupTokens, List.append_assoc]
  rw [readBinaryString_write g.name hn]
  show (do
    let (off, s) ← readBinaryInt (writeBinaryInt (g.offset : ℤ) ++
      (writeBinaryInt (g.dof : ℤ) ++ (writeBinaryString g.interpolation ++ rest)))
    let (dof, s) ← readBinaryInt s
    let (interp, s) ← readBinaryString s
    if 0 ≤ off ∧ 0 ≤ dof then some ((⟨g.name, off.toNat, dof.toNat, interp⟩ : Group), s)
    else none) = some (g, rest)
  rw [readBinaryInt_write]
  show (do
    let (dof, s) ← readBinaryInt (writeBinaryInt (g.dof : ℤ) ++
      (writeBinaryString g.interpolation ++ rest))
    let (interp, s) ← readBinaryString s
    if 0 ≤ (g.offset : ℤ) ∧ 0 ≤ dof then
      some ((⟨g.name, (g.offset : ℤ).toNat, dof.toNat, interp⟩ : Group), s)
    else none) = some (g, rest)
  rw [readBinaryInt_write]
  show (do
    let (interp, s) ← readBinaryString (writeBinaryString g.interpolation ++ rest)
    if 0 ≤ (g.offset : ℤ) ∧ 0 ≤ (g.dof : ℤ) then
      some ((⟨g.name, (g.offset : ℤ).toNat, (g.dof : ℤ).toNat, interp⟩ : Group), s)
    else none) = some (g, rest)
  rw [readBinaryString_write g.interpolation hi]
  show (if 0 ≤ (g.offset : ℤ) ∧ 0 ≤ (g.dof : ℤ) then
      some ((⟨g.name, (g.offset : ℤ).toNat, (g.dof : ℤ).toNat, g.interpolation⟩ : Group), rest)
    else none) = some (g, rest)
  rw [if_pos ⟨Int.natCast_nonneg _, Int.natCast_nonneg _⟩, Int.toNat_natCast,
    Int.toNat_natCast]

theorem readGroupList_write : ∀ (gs : List Group),
    (∀ g ∈ gs, g.name.length < 65536 ∧ g.interpolation.length < 65536) →
    ∀ rest : List BinToken,
      readGroupList gs.length ((gs.map writeGroupTokens).flatten ++ rest) =
        some (gs, rest) := by
  intro gs
  induction gs with
  | nil => intro _ rest; rfl
  | cons g gs ih =>
    intro hb rest
    rw [List.length_cons, List.map_cons, List.flatten_cons, List.append_assoc]
    show (do
      let (g1, s) ← readGroupTokens (writeGroupTokens g ++
        ((gs.map writeGroupTokens).flatten ++ rest))
      let (gs1, s) ← readGroupList gs.length s
      some ((g1 :: gs1 : List Group), s)) = some (g :: gs, rest)
    rw [readGroupTokens_write g (hb g (List.mem_cons_self g gs)).1
      (hb g (List.mem_cons_self g gs)).2]
    show (do
      let (gs1, s) ← readGroupList gs.length ((gs.map writeGroupTokens).flatten ++ rest)
      some ((g :: gs1 : List Group), s)) = some (g :: gs, rest)
    rw [ih (fun g2 hg2 => hb g2 (List.mem_cons_of_mem g hg2)) rest]
    rfl

theorem readReadableList_write : ∀ (rs : List (String × String)),
    (∀ r ∈ rs, r.1.length < 65536 ∧ r.2.length < 65536) →
    ∀ rest : List BinToken,
      readReadableList 3 rs.length ((rs.map writeReadableTokens).flatten ++ rest) =
        some (rs, rest) := by
  intro rs
  induction rs with
  | nil => intro _ rest; rfl
  | cons r rs ih =>
    intro hb rest
    rw [List.length_cons, List.map_cons, List.flatten_cons, List.append_assoc]
    simp only [writeReadableTokens, List.append_assoc]
    show (do
      let (xmlid, s) ← readBinaryString (writeBinaryString r.1 ++ (writeBinaryString r.2 ++
        (writeBinaryString "StringReadable" ++
          ((rs.map writeReadableTokens).flatten ++ rest))))
      let (payload, s) ← readBinaryString s
      if 3 ≤ (3 : ℕ) then do
        let (readerType, s) ← readBinaryString s
        if readerType = "HierarchicalXMLReadable" then none
        else do
          let (rs1, s) ← readReadableList 3 rs.length s
          some (((xmlid, payload) : String × String) :: rs1, s)
      else do
        let (rs1, s) ← readReadableList 3 rs.length s
        some (((xmlid, payload) : String × String) :: rs1, s)) = some (r :: rs, rest)
    rw [readBinaryString_write r.1 (hb r (List.mem_cons_self r rs)).1]
    show (do
      let (payload, s) ← readBinaryString (writeBinaryString r.2 ++
        (writeBinaryString "StringReadable" ++ ((rs.map writeReadableTokens).flatten ++ rest)))
      if 3 ≤ (3 : ℕ) then do
        let (readerType, s) ← readBinaryString s
        if readerType = "HierarchicalXMLReadable" then none
        else do
          let (rs1, s) ← readReadableList 3 rs.length s
          some (((r.1, payload) : String × String) :: rs1, s)
      else do
        let (rs1, s) ← readReadableList 3 rs.length s
        some (((r.1, payload) : String × String) :: rs1, s)) = some (r :: rs, rest)
    rw [readBinaryString_write r.2 (hb r (List.mem_cons_self r rs)).2]
    show (if 3 ≤ (3 : ℕ) then do
        let (readerType, s) ← readBinaryString (writeBinaryString "StringReadable" ++
          ((rs.map writeReadableTokens).flatten ++ rest))
        if readerType = "HierarchicalXMLReadable" then none
        else do
          let (rs1, s) ← readReadableList 3 rs.length s
          some (((r.1, r.2) : String × String) :: rs1, s)
      else do
        let (rs1, s) ← readReadableList 3 rs.length
          (writeBinaryString "StringReadable" ++ ((rs.map writeReadableTokens).flatten ++ rest))
        some (((r.1, r.2) : String × String) :: rs1, s)) = some (r :: rs, rest)
    rw [if_pos (by decide : 3 ≤ (3 : ℕ))]
    rw [readBinaryString_write "StringReadable" (by decide)]
    show (if "StringReadable" = "HierarchicalXMLReadable" then none
      else do
        let (rs1, s) ← readReadableList 3 rs.length ((rs.map writeReadableTokens).flatten ++ rest)
        some (((r.1, r.2) : String × String) :: rs1, s)) = some (r :: rs, rest)
    rw [if_neg (by decide)]
    rw [ih (fun r2 hr2 => hb r2 (List.mem_cons_of_mem r hr2)) rest]
    rfl

/-- Claim C2 (confirmed).  For an initialized trajectory — whose groups are
therefore in canonical sorted order (`Init_groupsSorted`) — with all
serialized lengths in the 16-bit (strings and counts) and 32-bit (waypoint
scalars) ranges the source asserts, serializing in binary mode and
deserializing the produced stream into any trajectory yields equal spec,
bitwise-equal waypoint buffer, equal description and equal readable set. -/
theorem C2_binary_roundtrip (traj t0 : GenericTrajectory)
    (hsorted : GroupsSorted traj.spec.vgroups)
    (hng : traj.spec.vgroups.length < 65536)
    (hgb : ∀ g ∈ traj.spec.vgroups, g.name.length < 65536 ∧ g.interpolation.length < 65536)
    (hdata : traj.vtrajdata.length < 4294967296)
    (hdesc : traj.description.length < 65536)
    (hnr : traj.readables.length < 65536)
    (hrb : ∀ r ∈ traj.readables, r.1.length < 65536 ∧ r.2.length < 65536) :
    ∃ t2, deserializeTraj t0 (serializeTraj traj) = some t2 ∧
      t2.spec = traj.spec ∧ t2.vtrajdata = traj.vtrajdata ∧
      t2.description = traj.description ∧ t2.readables = traj.readables := by
  have hspec : (Init { t0 with bInit := false } ⟨traj.spec.vgroups⟩).spec = traj.spec := by
    rw [Init_spec_not_init _ _ rfl]
    show (⟨sortSpecGroups traj.spec.vgroups⟩ : ConfigurationSpecification) = traj.spec
    rw [sortSpecGroups_of_sorted _ hsorted]
  have hd : deserializeTraj t0 (serializeTraj traj) =
      some { Init { t0 with bInit := false } ⟨traj.spec.vgroups⟩ with
        vtrajdata := traj.vtrajdata, description := traj.description,
        readables := traj.readables } := by
    rw [serializeTraj]
    simp only [writeBinaryUInt16, List.cons_append, List.nil_append, List.append_assoc]
    rw [Nat.mod_eq_of_lt hng, Nat.mod_eq_of_lt hnr,
      show (25343 % 65536 : ℕ) = 25343 from rfl, show (3 % 65536 : ℕ) = 3 from rfl]
    generalize hT : (some { Init { t0 with bInit := false } ⟨traj.spec.vgroups⟩ with
      vtrajdata := traj.vtrajdata, description := traj.description,
      readables := traj.readables } : Option GenericTrajectory) = T
    show (if (25343 : ℕ) ≠ 25343 then none else do
      let (version, s) ← readBinaryUInt16 (.u16 3 :: .u16 traj.spec.vgroups.length ::
        ((traj.spec.vgroups.map writeGroupTokens).flatten ++
          (writeBinaryVector traj.vtrajdata ++ (writeBinaryString traj.description ++
            (.u16 traj.readables.length ::
              (traj.readables.map writeReadableTokens).flatten)))))
      if 3 < version ∨ version < 1 then none
      else do
        let (numGroups, s) ← readBinaryUInt16 s
        let (groups, s) ← readGroupList numGroups s
        let (vdata, s) ← readBinaryVector s
        let (desc, s) ← readBinaryString s
        if 2 ≤ version then do
          let (numReadables, s) ← readBinaryUInt16 s
          let (readables, _s) ← readReadableList version numReadables s
          some { Init { t0 with bInit := false } ⟨groups⟩ with
            vtrajdata := vdata, description := desc, readables := readables }
        else
          some { Init { t0 with bInit := false } ⟨groups⟩ with
            vtrajdata := vdata, description := desc, readables := [] }) = T
    rw [if_neg (by decide)]
    show (if 3 < (3 : ℕ) ∨ (3 : ℕ) < 1 then none else do
      let (numGroups, s) ← readBinaryUInt16 (.u16 traj.spec.vgroups.length ::
        ((traj.spec.vgroups.map writeGroupTokens).flatten ++
          (writeBinaryVector traj.vtrajdata ++ (writeBinaryString traj.description ++
            (.u16 traj.readables.length ::
              (traj.readables.map writeReadableTokens).flatten)))))
      let (groups, s) ← readGroupList numGroups s
      let (vdata, s) ← readBinaryVector s
      let (desc, s) ← readBinaryString s
      if 2 ≤ (3 : ℕ) then do
        let (numReadables, s) ← readBinaryUInt16 s
        let (readables, _s) ← readReadableList 3 numReadables s
        some { Init { t0 with bInit := false } ⟨groups⟩ with
          vtrajdata := vdata, description := desc, readables := readables }
      else
        some { Init { t0 with bInit := false } ⟨groups⟩ with
          vtrajdata := vdata, description := desc, readables := [] }) = T
    rw [if_neg (by decide)]
    show (do
      let (groups, s) ← readGroupList traj.spec.vgroups.length
        ((traj.spec.vgroups.map writeGroupTokens).flatten ++
          (writeBinaryVector traj.vtrajdata ++ (writeBinaryString traj.description ++
            (.u16 traj.readables.length ::
              (traj.readables.map writeReadableTokens).flatten))))
      let (vdata, s) ← readBinaryVector s
      let (desc, s) ← readBinaryString s
      if 2 ≤ (3 : ℕ) then do
        let (numReadables, s) ← readBinaryUInt16 s
        let (readables, _s) ← readReadableList 3 numReadables s
        some { Init { t0 with bInit := false } ⟨groups⟩ with
          vtrajdata := vdata, description := desc, readables := readables }
      else
        some { Init { t0 with bInit := false } ⟨groups⟩ with
          vtrajdata := vdata, description := desc, readables := [] }) = T
    rw [readGroupList_write traj.spec.vgroups hgb]
    show (do
      let (vdata, s) ← readBinaryVector (writeBinaryVector traj.vtrajdata ++
        (writeBinaryString traj.description ++ (.u16 traj.readables.length ::
          (traj.readables.map writeReadableTokens).flatten)))
      let (desc, s) ← readBinaryString s
      if 2 ≤ (3 : ℕ) then do
        let (numReadables, s) ← readBinaryUInt16 s
        let (readables, _s) ← readReadableList 3 numReadables s
        some { Init { t0 with bInit := false } ⟨traj.spec.vgroups⟩ with
          vtrajdata := vdata, description := desc, readables := readables }
      else
        some { Init { t0 with bInit := false } ⟨traj.spec.vgroups⟩ with
          vtrajdata := vdata, description := desc, readables := [] }) = T
    rw [readBinaryVector_write traj.vtrajdata hdata]
    show (do
      let (desc, s) ← readBinaryString (writeBinaryString traj.description ++
        (.u16 traj.readables.length :: (traj.readables.map writeReadableTokens).flatten))
      if 2 ≤ (3 : ℕ) then do
        let (numReadables, s) ← readBinaryUInt16 s
        let (readables, _s) ← readReadableList 3 numReadables s
        some { Init { t0 with bInit := false } ⟨traj.spec.vgroups⟩ with
          vtrajdata := traj.vtrajdata, description := desc, readables := readables }
      else
        some { Init { t0 with bInit := false } ⟨traj.spec.vgroups⟩ with
          vtrajdata := traj.vtrajdata, description := desc, readables := [] }) = T
    rw [readBinaryString_write traj.description hdesc]
    show (if 2 ≤ (3 : ℕ) then do
        let (numReadables, s) ← readBinaryUInt16 (.u16 traj.readables.length ::
          (traj.readables.map writeReadableTokens).flatten)
        let (readables, _s) ← readReadableList 3 numReadables s
        some { Init { t0 with bInit := false } ⟨traj.spec.vgroups⟩ with
          vtrajdata := traj.vtrajdata, description := traj.description,
          readables := readables }
      else
        some { Init { t0 with bInit := false } ⟨traj.spec.vgroups⟩ with
          vtrajdata := traj.vtrajdata, description := traj.description,
          readables := [] }) = T
    rw [if_pos (by decide : 2 ≤ (3 : ℕ))]
    show (do
      let (readables, _s) ← readReadableList 3 traj.readables.length
        ((traj.readables.map writeReadableTokens).flatten)
      some { Init { t0 with bInit := false } ⟨traj.spec.vgroups⟩ with
        vtrajdata := traj.vtrajdata, description := traj.description,
        readables := readables }) = T
    rw [show (traj.readables.map writeReadableTokens).flatten =
        (traj.readables.map writeReadableTokens).flatten ++ [] from
      (List.append_nil _).symm]
    rw [readReadableList_write traj.readables hrb []]
    exact hT
  exact ⟨_, hd, hspec, rfl, rfl, rfl⟩

/-- Witness for C2: the concrete round trip of a two-waypoint trajectory
carrying a description and one readable annotation. -/
theorem C2_witness :
    ∃ t2, deserializeTraj emptyTrajectory (serializeTraj trajC2wit) = some t2 ∧
      t2.spec = trajC2wit.spec ∧ t2.vtrajdata = trajC2wit.vtrajdata ∧
      t2.description = trajC2wit.description ∧ t2.readables = trajC2wit.readables :=
  C2_binary_roundtrip trajC2wit emptyTrajectory (by decide) (by decide) (by decide)
    (by decide) (by decide) (by decide) (by decide)

end GenTraj
